import Mathlib

/-!
# GPU topology aware scoring: a shallow embedding

The development follows `pkg/gputopologyaware`:

* `device.go`            : `P2PLinkType`, `P2PLink`, `Device`, `NewDeviceList`, `validateSlice`,
                           `newDevice`;
* `utils.go`             : `decodeFloatSlice`;
* `gputopologyaware.go`  : `PreScore`, `Score`, `NormalizeScore`, `getTopologies`.

Go slices are lists, Go maps are association lists with replace-on-insert, a Go `int` is an
`Int` (wrapped to 64 bits where the plugin does arithmetic on it), and a run-time panic is an
explicit outcome.
-/

namespace GPUTopologyAware

/-! ## device.go : data model -/

/-- The type `P2PLinkType` is a Go `uint`: a natural number. -/
abbrev P2PLinkType := Nat

def P2PLinkUnknown : P2PLinkType := 0
def P2PLinkCrossCPU : P2PLinkType := 1
def P2PLinkSameCPU : P2PLinkType := 2
def P2PLinkHostBridge : P2PLinkType := 3
def P2PLinkMultiSwitch : P2PLinkType := 4
def P2PLinkSingleSwitch : P2PLinkType := 5
def P2PLinkSameBoard : P2PLinkType := 6
def SingleNVLINKLink : P2PLinkType := 7
def TwoNVLINKLinks : P2PLinkType := 8
def ThreeNVLINKLinks : P2PLinkType := 9
def FourNVLINKLinks : P2PLinkType := 10
def FiveNVLINKLinks : P2PLinkType := 11
def SixNVLINKLinks : P2PLinkType := 12
def SevenNVLINKLinks : P2PLinkType := 13
def EightNVLINKLinks : P2PLinkType := 14
def NineNVLINKLinks : P2PLinkType := 15
def TenNVLINKLinks : P2PLinkType := 16
def ElevenNVLINKLinks : P2PLinkType := 17
def TwelveNVLINKLinks : P2PLinkType := 18
def ThirteenNVLINKLinks : P2PLinkType := 19
def FourteenNVLINKLinks : P2PLinkType := 20
def FifteenNVLINKLinks : P2PLinkType := 21
def SixteenNVLINKLinks : P2PLinkType := 22
def SeventeenNVLINKLinks : P2PLinkType := 23
def EighteenNVLINKLinks : P2PLinkType := 24

/-- The struct `P2PLink` (its field `Type` is `Type_` here). The Go field `GPU` is a pointer to
a device owned by the device list; here it is the position of that device in the owning list
(the list is the heap, a position is an address). -/
structure P2PLink where
  GPU : Nat
  Type_ : P2PLinkType
  deriving DecidableEq, Repr

/-- The struct `Device`. `Links` is the Go map `map[int][]P2PLink` as an association list whose
keys are pairwise different; the nil map and the empty map are both `[]`. `Index` is never
negative: `newDevice` is only called on loop counters and on literals `0..3`. -/
structure Device where
  Index : Nat
  Links : List (Nat × List P2PLink)
  deriving DecidableEq, Repr

/-- Map read `m[k]` with the comma-ok result. -/
def mapGet {κ β : Type} [DecidableEq κ] : List (κ × β) → κ → Option β
  | [], _ => none
  | (k', v) :: rest, k => if k' = k then some v else mapGet rest k

/-- Map write `m[k] = v`: replaces the entry of an existing key, adds one otherwise. -/
def mapSet {κ β : Type} [DecidableEq κ] : List (κ × β) → κ → β → List (κ × β)
  | [], k, v => [(k, v)]
  | (k', v') :: rest, k, v => if k' = k then (k, v) :: rest else (k', v') :: mapSet rest k v

/-- What a Go call that returns `(value, error)` can do: return a value with a nil error,
return a nil value with an error, or panic. -/
inductive Outcome (α : Type) where
  | ok (value : α)
  | error (msg : String)
  | panicked
  deriving DecidableEq, Repr

/-- The function `newDevice`. -/
def newDevice (index : Nat) : Device := { Index := index, Links := [] }

/-- The generic `validateSlice`: `f` is asked about every pair of rows `i < j`. -/
def validateSlice {α : Type} (slice : List (List α)) (f : List α → List α → Bool) : Bool :=
  if slice.length = 0 ∨ slice.length = 1 then true
  else
    (List.range (slice.length - 1)).all fun i =>
      (List.range' (i + 1) (slice.length - (i + 1))).all fun j =>
        f (slice.getD i []) (slice.getD j [])

/-- The conversion `P2PLinkType(linkType)` of a Go `int` to a Go `uint` (64 bits). -/
def toP2PLinkType (linkType : Int) : P2PLinkType := (linkType % 2 ^ 64).toNat

/-- The statement `devices[i].Links[j] = []P2PLink{{GPU: devices[j], Type: P2PLinkType(linkType)}}`
with the nil check in front of it; `none` when `devices[i]` or `devices[j]` is out of range. -/
def setLink (devices : List Device) (i j : Nat) (linkType : Int) : Option (List Device) :=
  match devices[i]?, devices[j]? with
  | some di, some _ =>
    some (devices.set i
      { di with Links := mapSet di.Links j [{ GPU := j, Type_ := toP2PLinkType linkType }] })
  | _, _ => none

/-- The inner loop `for j, linkType := range links`, entered at column `j`. -/
def linkLoop (i : Nat) : Nat → List Int → List Device → Option (List Device)
  | _, [], devices => some devices
  | j, linkType :: rest, devices =>
    if i = j then linkLoop i (j + 1) rest devices
    else
      match setLink devices i j linkType with
      | some devices' => linkLoop i (j + 1) rest devices'
      | none => none

/-- The outer loop `for i, links := range matrix`, entered at row `i`. -/
def rowLoop : Nat → List (List Int) → List Device → Option (List Device)
  | _, [], devices => some devices
  | i, links :: rest, devices =>
    match linkLoop i 0 links devices with
    | some devices' => rowLoop (i + 1) rest devices'
    | none => none

/-- The function `NewDeviceList`. -/
def NewDeviceList (matrix : List (List Int)) : Outcome (List Device) :=
  if matrix.length = 0 then Outcome.error "no devices provided"
  else if !validateSlice matrix (fun matrix1 matrix2 => matrix1.length == matrix2.length) then
    Outcome.error "invalid device list"
  else
    let deviceLen := (matrix.getD 0 []).length
    let devices := (List.range deviceLen).map newDevice
    match rowLoop 0 matrix devices with
    | some devices' => Outcome.ok devices'
    | none => Outcome.panicked

/-! ## The allocator and the link scorer

`gputopologyaware.go` calls `allocate(devices, nil, count)` and `allocate_test.go` tests it, but
the file that defines `allocate` and the link scorer is not among the sources. Both are modelled
from the specification (its sections 3, 4.2, 4.3, 7 and 8), and the model is checked against
every case of `Test_allocate` and `TestGPUTopologyAware`. -/

/-- Modelled from the spec: the link scorer of section 4.2, whose source is missing. Codes below
the one-NVLink rank weigh 0; the code of `k` parallel NVLinks weighs `100 * k`. -/
def linkScore (code : P2PLinkType) : Int :=
  if code < SingleNVLINKLink then 0 else ((code - P2PLinkSameBoard : Nat) : Int) * 100

/-- Modelled from the spec: "has a link entry for" of section 3, for the missing `allocate`:
the link map of `a` has the key `b.Index`. -/
def hasLinkTo (a b : Device) : Bool := (mapGet a.Links b.Index).isSome

/-- Modelled from the spec: the topology-completeness invariant of section 3, for the missing
`allocate`: every device of the set has a link entry for every other device of the set. -/
def complete (s : List Device) : Bool :=
  s.all fun a => s.all fun b => a.Index == b.Index || hasLinkTo a b

/-- Modelled from the spec: the weight of the connection from `a` to `b` (section 4.3), for the
missing `allocate`: the link records under key `b.Index` of `a`, each weighed by the scorer. -/
def pairWeight (a b : Device) : Int :=
  match mapGet a.Links b.Index with
  | some links => (links.map fun l => linkScore l.Type_).sum
  | none => 0

/-- Modelled from the spec: the sum over every unordered pair of a device sequence (section
4.3), for the missing `allocate`; a pair is weighed by the link of its earlier member. -/
def pairsSum : List Device → Int
  | [] => 0
  | a :: rest => (rest.map (pairWeight a)).sum + pairsSum rest

/-- Modelled from the spec: "ordered by ascending original device index" (section 4.3), for the
missing `allocate`. -/
def sortByIndex (s : List Device) : List Device :=
  s.insertionSort fun a b => a.Index ≤ b.Index

/-- Modelled from the spec: the score of a candidate union (section 4.3), for the missing
`allocate`: its pairs are taken in ascending index order, so the link of the lower-indexed
device is the one that counts. -/
def setScore (u : List Device) : Int := pairsSum (sortByIndex u)

/-- Modelled from the spec: every combination of `k` elements of a sequence (section 4.3, 9),
for the missing `allocate`, in lexicographic order of the positions. -/
def combinations {α : Type} : Nat → List α → List (List α)
  | 0, _ => [[]]
  | _ + 1, [] => []
  | k + 1, x :: xs => (combinations k xs).map (fun c => x :: c) ++ combinations (k + 1) xs

/-- Modelled from the spec: the candidate unions of section 4.3, for the missing `allocate`:
`preselected` with every combination of the missing number of devices of
`available \ preselected`. -/
def candidates (available preselected : List Device) (count : Nat) : List (List Device) :=
  (combinations (count - preselected.length)
    (available.filter fun d => !preselected.contains d)).map fun c => preselected ++ c

/-- Modelled from the spec: one step of "select the one with the strictly greatest score"
(section 4.3), for the missing `allocate`: a later candidate wins only with a strictly greater
score, so among equal scores the first one in lexicographic order stays. -/
def better (best : Option (List Device × Int)) (c : List Device × Int) :
    Option (List Device × Int) :=
  match best with
  | none => some c
  | some b => if b.2 < c.2 then some c else some b

/-- Modelled from the spec: the function `allocate`, whose source is missing (sections 3, 4.3,
7 and 8). A count of 0 or less gives the empty selection; an `available` set that is not
complete gives the empty selection whatever the count (section 8, and the case
`invalid devices` of `Test_allocate`); count 1 without preselection gives the first device;
otherwise the valid candidate of greatest score is returned in ascending index order, and the
empty selection with score 0 when there is none. The nil and the empty selection are `[]`. -/
def allocate (available preselected : List Device) (count : Int) : List Device × Int :=
  if count ≤ 0 then ([], 0)
  else if !complete available then ([], 0)
  else if count = 1 ∧ preselected = [] then
    match available with
    | [] => ([], 0)
    | d :: _ => ([d], 0)
  else if count < preselected.length then ([], 0)
  else
    match (((candidates available preselected count.toNat).filter complete).map
        fun u => (sortByIndex u, setScore u)).foldl better none with
    | some r => r
    | none => ([], 0)

/-! ## utils.go and gputopologyaware.go -/

def nvidiaGPU : String := "nvidia.com/gpu"

def TOPOLOGY_INFO_KEY : String := "node.gpu.info/topology"

def maxScoreFactor : Int := 1800

/-- The constant `framework.MaxNodeScore` of the scheduling framework. -/
def MaxNodeScore : Int := 100

/-- The status codes of the scheduling framework that the plugin uses. -/
inductive Code where
  | Success
  | Error
  | Skip
  deriving DecidableEq, Repr

/-- A `*framework.Status`: the nil pointer, or a status with a code and a reason. -/
inductive Status where
  | nil
  | status (code : Code) (reason : String)
  deriving DecidableEq, Repr

/-- The method `Code()` of a status: the nil status is a success. -/
def Status.Code : Status → Code
  | Status.nil => Code.Success
  | Status.status c _ => c

/-- A container, as far as the plugin reads it: `Resources.Limits`, a map from resource names
to quantities (their `Value()`). -/
structure Container where
  Limits : List (String × Int)
  deriving DecidableEq, Repr

/-- A pod, as far as the plugin reads it. -/
structure Pod where
  Containers : List Container
  InitContainers : List Container
  deriving DecidableEq, Repr

/-- A node, as far as the plugin reads it: its annotations, a Go map that may be nil. -/
structure Node where
  Annotations : Option (List (String × String))
  deriving DecidableEq, Repr

/-- An entry of a `framework.NodeScoreList`. -/
structure NodeScore where
  Name : String
  Score : Int
  deriving DecidableEq, Repr

/-- The collaborators outside the repository: the node lister of the snapshot
(`sharedLister.NodeInfos().Get`), `json.Unmarshal` into a `[][]int`, and
`resource.PodLimits`. -/
structure Host where
  NodeInfosGet : String → Except String Node
  Unmarshal : String → Except String (List (List Int))
  PodLimits : Pod → List (String × Int)

/-- Arithmetic on `int64` wraps around. -/
def wrap64 (x : Int) : Int := (x + 2 ^ 63) % 2 ^ 64 - 2 ^ 63

/-- The function `decodeFloatSlice` of `utils.go`: the decoded matrix, or nil with the error. -/
def decodeFloatSlice (h : Host) (inputString : String) : Except String (List (List Int)) :=
  match h.Unmarshal inputString with
  | Except.error err => Except.error err
  | Except.ok result => Except.ok result

/-- The function `getTopologies`; `labels[TOPOLOGY_INFO_KEY]` of a missing key is the empty
string, and the nil matrix is `[]`. -/
def getTopologies (h : Host) (nodeInfo : Node) : Except String (List (List Int)) :=
  match nodeInfo.Annotations with
  | some labels =>
    if ((mapGet labels TOPOLOGY_INFO_KEY).getD "").length ≠ 0 then
      decodeFloatSlice h ((mapGet labels TOPOLOGY_INFO_KEY).getD "")
    else Except.ok []
  | none => Except.ok []

/-- The method `PreScore`. -/
def PreScore (pod : Pod) (_nodes : List Node) : Status :=
  let requiredGPU := pod.Containers.any fun c => (mapGet c.Limits nvidiaGPU).isSome
  if !requiredGPU then Status.status Code.Skip "" else Status.nil

/-- The verb `%q` of `fmt.Errorf` on a node name: the name between double quotes, with a
backslash in front of every double quote and backslash of the name. (Node names are DNS
subdomain names; they hold no character that `%q` would write in another way.) -/
def quoted (name : String) : String :=
  let quote := String.singleton (Char.ofNat 34)
  let backslash := String.singleton (Char.ofNat 92)
  quote ++
    String.join (name.toList.map fun c =>
      if c = Char.ofNat 34 ∨ c = Char.ofNat 92 then backslash ++ String.singleton c
      else String.singleton c) ++
    quote

/-- The method `Score`: the score and the status it returns, or `none` when the call panics
inside `NewDeviceList`. `framework.AsStatus(err)` is the status of code `Error` with the text
of `err`. -/
def Score (h : Host) (pod : Pod) (nodeName : String) : Option (Int × Status) :=
  match h.NodeInfosGet nodeName with
  | Except.error err =>
    some (0, Status.status Code.Error
      ("failed to get node " ++ quoted nodeName ++ " from Snapshot: " ++ err))
  | Except.ok nodeInfo =>
    match getTopologies h nodeInfo with
    | Except.error _ => some (0, Status.status Code.Error "failed to get topology matrix")
    | Except.ok topologies =>
      if topologies.length = 0 then some (0, Status.nil)
      else
        match NewDeviceList topologies with
        | Outcome.error msg => some (0, Status.status Code.Error msg)
        | Outcome.panicked => none
        | Outcome.ok devices =>
          let quota : Int := (mapGet (h.PodLimits pod) nvidiaGPU).getD 0
          let score := (allocate devices [] quota).2
          let maxScore :=
            wrap64 (Int.tdiv (wrap64 (wrap64 (quota * wrap64 (quota - 1)) * maxScoreFactor)) 2)
          if maxScore = 0 then some (0, Status.nil)
          else some (wrap64 (Int.tdiv (wrap64 (wrap64 score * 100)) maxScore), Status.nil)

/-- One step of the loop of `NormalizeScore`. -/
def clampScore (s : NodeScore) : NodeScore :=
  if s.Score > MaxNodeScore then { s with Score := MaxNodeScore } else s

/-- The method `NormalizeScore`: the list after the loop, and the nil status. -/
def NormalizeScore (scores : List NodeScore) : List NodeScore × Status :=
  (scores.map clampScore, Status.nil)

/-! ## The fixtures of the tests -/

/-- The case `invalid matrix` of `Test_NewDeviceList`. -/
def invalidMatrix : List (List Int) := [[1, 2, 3], [3, 2, 1], [3, 0]]

/-- The case `correct  matrix` of `Test_NewDeviceList`. -/
def correctMatrix : List (List Int) :=
  [[-1, 8, 8, 7], [8, -1, 7, 7], [8, 7, -1, 8], [7, 7, 8, -1]]

/-- The devices that `Test_NewDeviceList` wants for `correctMatrix`. -/
def wantDevices : List Device :=
  [{ Index := 0, Links := [(1, [{ GPU := 1, Type_ := 8 }]), (2, [{ GPU := 2, Type_ := 8 }]),
      (3, [{ GPU := 3, Type_ := 7 }])] },
   { Index := 1, Links := [(0, [{ GPU := 0, Type_ := 8 }]), (2, [{ GPU := 2, Type_ := 7 }]),
      (3, [{ GPU := 3, Type_ := 7 }])] },
   { Index := 2, Links := [(0, [{ GPU := 0, Type_ := 8 }]), (1, [{ GPU := 1, Type_ := 7 }]),
      (3, [{ GPU := 3, Type_ := 8 }])] },
   { Index := 3, Links := [(0, [{ GPU := 0, Type_ := 7 }]), (1, [{ GPU := 1, Type_ := 7 }]),
      (2, [{ GPU := 2, Type_ := 8 }])] }]

/-- The devices of `Test_allocate`. -/
def device0 : Device :=
  { Index := 0, Links := [(1, [{ GPU := 1, Type_ := 8 }]), (2, [{ GPU := 2, Type_ := 8 }]),
      (3, [{ GPU := 3, Type_ := 7 }])] }

def device1 : Device :=
  { Index := 1, Links := [(0, [{ GPU := 0, Type_ := 8 }]), (2, [{ GPU := 2, Type_ := 7 }]),
      (3, [{ GPU := 3, Type_ := 7 }])] }

def device2 : Device :=
  { Index := 2, Links := [(0, [{ GPU := 0, Type_ := 8 }]), (1, [{ GPU := 1, Type_ := 7 }]),
      (3, [{ GPU := 3, Type_ := 10 }])] }

def device3 : Device :=
  { Index := 3, Links := [(0, [{ GPU := 0, Type_ := 7 }]), (1, [{ GPU := 1, Type_ := 7 }]),
      (2, [{ GPU := 2, Type_ := 10 }])] }

/-- The device `invalidDevice2` of `Test_allocate`: index 2, and no link entry for device 1. -/
def invalidDevice2 : Device :=
  { Index := 2, Links := [(0, [{ GPU := 0, Type_ := 8 }]), (2, [{ GPU := 2, Type_ := 7 }]),
      (3, [{ GPU := 3, Type_ := 8 }])] }

/-- The cell `matrix[i][j]`. -/
def cell (matrix : List (List Int)) (i j : Nat) : Int := (matrix.getD i []).getD j 0

/-- The link map of the device at position `i` (empty when there is none). -/
def linksAt (devices : List Device) (i : Nat) : List (Nat × List P2PLink) :=
  ((devices[i]?).map Device.Links).getD []

/-- A value of the Go type `int` (64 bits). -/
def isGoInt (x : Int) : Prop := -(2 ^ 63) ≤ x ∧ x < 2 ^ 63

instance (x : Int) : Decidable (isGoInt x) := by
  unfold isGoInt
  infer_instance

/-- A matrix that the two directions of a pair read differently. -/
def asymmetricMatrix : List (List Int) := [[-1, 8], [7, -1]]

instance : IsTotal Device (fun a b => a.Index ≤ b.Index) :=
  ⟨fun a b => Nat.le_total a.Index b.Index⟩

instance : IsTrans Device (fun a b => a.Index ≤ b.Index) := ⟨fun _ _ _ => Nat.le_trans⟩

/-- The devices of a matrix that `NewDeviceList` accepts (`[]` otherwise). -/
def devicesOf (matrix : List (List Int)) : List Device :=
  match NewDeviceList matrix with
  | Outcome.ok devices => devices
  | _ => []

/-- The annotations of the nodes `node-0`, `node-1` and `node-2` of the cases with 2, 3 and 4
GPUs of `TestGPUTopologyAware`. -/
def node0Topology : String := "[[-1,8,8,7],[8,-1,7,7],[8,7,-1,10],[7,7,10,-1]]"

def node1Topology : String := "[[-1,8,24,4],[8,-1,14,10],[24,14,-1,10],[4,10,10,-1]]"

def node2Topology : String := "[[-1,8,8,8],[8,-1,8,8],[8,8,-1,8],[8,8,8,-1]]"

/-- The matrices that the three annotations denote. -/
def node0Matrix : List (List Int) :=
  [[-1, 8, 8, 7], [8, -1, 7, 7], [8, 7, -1, 10], [7, 7, 10, -1]]

def node1Matrix : List (List Int) :=
  [[-1, 8, 24, 4], [8, -1, 14, 10], [24, 14, -1, 10], [4, 10, 10, -1]]

def node2Matrix : List (List Int) :=
  [[-1, 8, 8, 8], [8, -1, 8, 8], [8, 8, -1, 8], [8, 8, 8, -1]]

/-- The host of `TestGPUTopologyAware`: three nodes that carry the three annotations, the
decoder on these three strings, and the limits of a pod that has one container and no init
container (what `st.MakePod().Lim(...)` builds). -/
def testHost : Host where
  NodeInfosGet := fun name =>
    if name = "node-0" then
      Except.ok { Annotations := some [(TOPOLOGY_INFO_KEY, node0Topology)] }
    else if name = "node-1" then
      Except.ok { Annotations := some [(TOPOLOGY_INFO_KEY, node1Topology)] }
    else if name = "node-2" then
      Except.ok { Annotations := some [(TOPOLOGY_INFO_KEY, node2Topology)] }
    else Except.error "not found"
  Unmarshal := fun s =>
    if s = node0Topology then Except.ok node0Matrix
    else if s = node1Topology then Except.ok node1Matrix
    else if s = node2Topology then Except.ok node2Matrix
    else Except.error "invalid character"
  PodLimits := fun pod =>
    match pod.Containers with
    | [c] => c.Limits
    | _ => []

/-- The pod that `st.MakePod().Lim(...).Obj()` builds for the limit `nvidiaGPU: q`. -/
def gpuPod (q : Int) : Pod :=
  { Containers := [{ Limits := [(nvidiaGPU, q)] }], InitContainers := [] }

/-- A host in which every node name is a node that carries `annotations`, the decoder answers
`decoded` to every string, and the limits of a pod are those of its one container. -/
def hostWith (annotations : Option (List (String × String)))
    (decoded : Except String (List (List Int))) : Host where
  NodeInfosGet := fun _ => Except.ok { Annotations := annotations }
  Unmarshal := fun _ => decoded
  PodLimits := fun pod =>
    match pod.Containers with
    | [c] => c.Limits
    | _ => []

/-- The annotation and the matrix of `node-1` in the case `pod with 1 GPU requested` of
`TestGPUTopologyAware`. -/
def node1TopologyOneGPU : String := "[[-1,8,16,4],[8,-1,14,10],[16,14,-1,10],[4,10,10,-1]]"

def node1MatrixOneGPU : List (List Int) :=
  [[-1, 8, 16, 4], [8, -1, 14, 10], [16, 14, -1, 10], [4, 10, 10, -1]]

/-- The pod of the case `pod with no GPU requested` of `TestGPUTopologyAware`. -/
def cpuPod : Pod :=
  { Containers := [{ Limits := [("cpu", 2)] }], InitContainers := [] }

/-- The first input of the failing cases of `Test_decodeFloatSlice`. -/
def floatTopology : String := "[[-1,2.1,1,2], [2,-1,0,2], [1,0,-1,1],[2,2,1,-1]]"

/-- The matrix `correctMatrix` with other values on the diagonal. -/
def correctMatrixOtherDiagonal : List (List Int) :=
  [[0, 8, 8, 7], [8, 5, 7, 7], [8, 7, 99, 8], [7, 7, 8, -7]]

/-- A rectangular matrix with more rows than columns: three rows of length two. -/
def moreRowsMatrix : List (List Int) := [[-1, 8], [8, -1], [7, 7]]

/-- A rectangular matrix with fewer rows than columns: two rows of length three. -/
def fewerRowsMatrix : List (List Int) := [[-1, 8, 7], [8, -1, 7]]

/-- A matrix of two devices whose link code is far above the enumeration: `10 ^ 15`. -/
def bigCodeMatrix : List (List Int) :=
  [[-1, 1000000000000000], [1000000000000000, -1]]

/-- The annotation that denotes `bigCodeMatrix`. -/
def bigCodeTopology : String := "[[-1,1000000000000000],[1000000000000000,-1]]"

/-- A node without the node lister: every name is unknown to the snapshot. -/
def unknownNodeHost : Host where
  NodeInfosGet := fun _ => Except.error "nodeinfo not found"
  Unmarshal := fun _ => Except.error "unexpected end of JSON input"
  PodLimits := fun _ => []

/-! ## Theorems about `NewDeviceList` -/

theorem validateSlice_eq_true_iff {α : Type} (slice : List (List α))
    (f : List α → List α → Bool) :
    validateSlice slice f = true ↔
      ∀ i j, i < j → j < slice.length → f (slice.getD i []) (slice.getD j []) = true := by
  unfold validateSlice
  split
  · rename_i h
    simp only [true_iff]
    intro i j hij hj
    omega
  · rename_i h
    simp only [List.all_eq_true, List.mem_range, List.mem_range'_1]
    constructor
    · intro H i j hij hj
      exact H i (by omega) j ⟨by omega, by omega⟩
    · intro H i _ j hj
      exact H i j (by omega) (by omega)

/-- C1: a matrix with two rows of different lengths is rejected with the error
`invalid device list`, and no device list is returned. -/
theorem NewDeviceList_rejects_unequal_rows (matrix : List (List Int)) (i j : Nat)
    (hi : i < matrix.length) (hj : j < matrix.length)
    (hne : (matrix[i]).length ≠ (matrix[j]).length) :
    NewDeviceList matrix = Outcome.error "invalid device list" := by
  have hlen : ¬ matrix.length = 0 := by omega
  have hval : validateSlice matrix (fun m1 m2 => m1.length == m2.length) = false := by
    by_contra hc
    rw [Bool.not_eq_false, validateSlice_eq_true_iff] at hc
    have gi : matrix.getD i [] = matrix[i] := by simp [List.getD, List.getElem?_eq_getElem hi]
    have gj : matrix.getD j [] = matrix[j] := by simp [List.getD, List.getElem?_eq_getElem hj]
    rcases Nat.lt_trichotomy i j with h | h | h
    · have := hc i j h hj
      rw [gi, gj] at this
      exact hne (by simpa using this)
    · subst h
      exact hne rfl
    · have := hc j i h hi
      rw [gi, gj] at this
      have e : (matrix[j]).length = (matrix[i]).length := by simpa using this
      exact hne e.symm
  simp [NewDeviceList, hlen, hval]

theorem NewDeviceList_rejects_unequal_rows_witness :
    NewDeviceList invalidMatrix = Outcome.error "invalid device list" :=
  NewDeviceList_rejects_unequal_rows invalidMatrix 0 2 (by decide) (by decide) (by decide)

/-- C2: a matrix with zero rows is rejected with the error `no devices provided`, and no
device list is returned. -/
theorem NewDeviceList_rejects_empty (matrix : List (List Int)) (h : matrix.length = 0) :
    NewDeviceList matrix = Outcome.error "no devices provided" := by
  simp [NewDeviceList, h]

theorem NewDeviceList_rejects_empty_witness :
    NewDeviceList [] = Outcome.error "no devices provided" :=
  NewDeviceList_rejects_empty [] rfl

theorem setLink_map_Index {devices devices' : List Device} {i j : Nat} {linkType : Int}
    (h : setLink devices i j linkType = some devices') :
    devices'.map Device.Index = devices.map Device.Index := by
  unfold setLink at h
  split at h
  · rename_i di dj hi hj
    injection h with h
    subst h
    rw [List.map_set]
    apply List.ext_getElem?
    intro k
    rw [List.getElem?_set]
    split
    · rename_i hik
      subst hik
      split
      · rename_i hlt
        simp [hi]
      · rename_i hlt
        simp at hlt
        simp [List.getElem?_eq_none hlt]
    · rfl
  · cases h

theorem linkLoop_map_Index (i : Nat) (links : List Int) :
    ∀ (j : Nat) (devices devices' : List Device), linkLoop i j links devices = some devices' →
      devices'.map Device.Index = devices.map Device.Index := by
  induction links with
  | nil =>
    intro j devices devices' h
    simp only [linkLoop] at h
    injection h with h
    rw [h]
  | cons linkType rest ih =>
    intro j devices devices' h
    simp only [linkLoop] at h
    split at h
    · exact ih _ _ _ h
    · split at h
      · rename_i d1 h1
        rw [ih _ _ _ h, setLink_map_Index h1]
      · cases h

theorem rowLoop_map_Index (matrix : List (List Int)) :
    ∀ (i : Nat) (devices devices' : List Device), rowLoop i matrix devices = some devices' →
      devices'.map Device.Index = devices.map Device.Index := by
  induction matrix with
  | nil =>
    intro i devices devices' h
    simp only [rowLoop] at h
    injection h with h
    rw [h]
  | cons links rest ih =>
    intro i devices devices' h
    simp only [rowLoop] at h
    split at h
    · rename_i d1 h1
      rw [ih _ _ _ h, linkLoop_map_Index _ _ _ _ _ h1]
    · cases h

theorem NewDeviceList_map_Index {matrix : List (List Int)} {devices : List Device}
    (h : NewDeviceList matrix = Outcome.ok devices) :
    devices.map Device.Index = List.range (matrix.getD 0 []).length := by
  unfold NewDeviceList at h
  split at h
  · cases h
  · split at h
    · cases h
    · simp only at h
      split at h
      · rename_i d1 h1
        injection h with h
        subst h
        rw [rowLoop_map_Index _ _ _ _ h1, List.map_map]
        apply List.ext_getElem <;> simp [newDevice]
      · cases h

theorem NewDeviceList_index_at (matrix : List (List Int)) (devices : List Device)
    (h : NewDeviceList matrix = Outcome.ok devices) :
    devices.length = (matrix.getD 0 []).length ∧
      ∀ (k : Nat) (hk : k < devices.length), (devices[k]).Index = k := by
  have hm := NewDeviceList_map_Index h
  have hl : devices.length = (matrix.getD 0 []).length := by
    have := congrArg List.length hm
    simpa using this
  refine ⟨hl, ?_⟩
  intro k hk
  have h1 : (devices.map Device.Index)[k]? = (List.range (matrix.getD 0 []).length)[k]? := by
    rw [hm]
  rw [List.getElem?_map, List.getElem?_eq_getElem hk, List.getElem?_range (by omega)] at h1
  simpa using h1

/-- C3: when `NewDeviceList` succeeds, the list it returns has `len(matrix[0])` devices, and
the device at position `k` has `Index = k`. -/
theorem NewDeviceList_length_and_indices (matrix : List (List Int)) (devices : List Device)
    (h : NewDeviceList matrix = Outcome.ok devices) :
    devices.length = (matrix.getD 0 []).length ∧
      ∀ (k : Nat) (hk : k < devices.length), (devices[k]).Index = k :=
  NewDeviceList_index_at matrix devices h

theorem NewDeviceList_length_and_indices_witness :
    NewDeviceList correctMatrix = Outcome.ok wantDevices ∧ wantDevices.length = 4 ∧
      wantDevices.map Device.Index = [0, 1, 2, 3] :=
  ⟨by decide,
    (NewDeviceList_length_and_indices correctMatrix wantDevices (by decide)).1,
    by decide⟩

theorem mapGet_mapSet_self {κ β : Type} [DecidableEq κ] (m : List (κ × β)) (k : κ) (v : β) :
    mapGet (mapSet m k v) k = some v := by
  induction m with
  | nil => simp [mapSet, mapGet]
  | cons p rest ih =>
    obtain ⟨k', v'⟩ := p
    by_cases h : k' = k
    · simp [mapSet, mapGet, h]
    · simp [mapSet, mapGet, h, ih]

theorem mapGet_mapSet_ne {κ β : Type} [DecidableEq κ] (m : List (κ × β)) (k k1 : κ) (v : β)
    (hne : k1 ≠ k) : mapGet (mapSet m k v) k1 = mapGet m k1 := by
  induction m with
  | nil =>
    have : ¬ k = k1 := fun e => hne e.symm
    simp [mapSet, mapGet, this]
  | cons p rest ih =>
    obtain ⟨k', v'⟩ := p
    by_cases h : k' = k
    · subst h
      have : ¬ k' = k1 := fun e => hne e.symm
      simp [mapSet, mapGet, this]
    · by_cases h1 : k' = k1
      · subst h1
        simp [mapSet, mapGet, h]
      · simp [mapSet, mapGet, h, h1, ih]

theorem setLink_spec (devices : List Device) (i j : Nat) (linkType : Int)
    (hi : i < devices.length) (hj : j < devices.length) :
    ∃ devices', setLink devices i j linkType = some devices' ∧
      devices'.length = devices.length ∧
      (∀ k, k ≠ i → devices'[k]? = devices[k]?) ∧
      linksAt devices' i =
        mapSet (linksAt devices i) j [{ GPU := j, Type_ := toP2PLinkType linkType }] := by
  unfold setLink
  rw [List.getElem?_eq_getElem hi, List.getElem?_eq_getElem hj]
  refine ⟨_, rfl, by simp, ?_, ?_⟩
  · intro k hk
    rw [List.getElem?_set_ne (fun e => hk e.symm)]
  · simp [linksAt, List.getElem?_set_self hi, List.getElem?_eq_getElem hi]

theorem linkLoop_spec (i : Nat) (links : List Int) :
    ∀ (j0 : Nat) (devices : List Device), i < devices.length →
      j0 + links.length ≤ devices.length →
      ∃ devices', linkLoop i j0 links devices = some devices' ∧
        devices'.length = devices.length ∧
        (∀ k, k ≠ i → devices'[k]? = devices[k]?) ∧
        ∀ j, mapGet (linksAt devices' i) j =
          if j0 ≤ j ∧ j < j0 + links.length ∧ j ≠ i then
            some [{ GPU := j, Type_ := toP2PLinkType (links.getD (j - j0) 0) }]
          else mapGet (linksAt devices i) j := by
  induction links with
  | nil =>
    intro j0 devices _ _
    refine ⟨devices, rfl, rfl, fun _ _ => rfl, ?_⟩
    intro j
    have : ¬ (j0 ≤ j ∧ j < j0 + ([] : List Int).length ∧ j ≠ i) := by
      simp only [List.length_nil]
      omega
    rw [if_neg this]
  | cons linkType rest ih =>
    intro j0 devices hi hlen
    simp only [List.length_cons] at hlen
    simp only [linkLoop]
    by_cases hij : i = j0
    · rw [if_pos hij]
      obtain ⟨d', h1, h2, h3, h4⟩ := ih (j0 + 1) devices hi (by omega)
      refine ⟨d', h1, h2, h3, ?_⟩
      intro j
      rw [h4 j]
      by_cases hc : j0 + 1 ≤ j ∧ j < j0 + 1 + rest.length ∧ j ≠ i
      · have hc' : j0 ≤ j ∧ j < j0 + (linkType :: rest).length ∧ j ≠ i := by
          simp only [List.length_cons]
          omega
        rw [if_pos hc, if_pos hc']
        have : j - j0 = (j - (j0 + 1)) + 1 := by omega
        rw [this]
        simp [List.getD]
      · have hc' : ¬ (j0 ≤ j ∧ j < j0 + (linkType :: rest).length ∧ j ≠ i) := by
          simp only [List.length_cons]
          omega
        rw [if_neg hc, if_neg hc']
    · rw [if_neg hij]
      obtain ⟨d1, e1, l1, o1, s1⟩ := setLink_spec devices i j0 linkType hi (by omega)
      rw [e1]
      obtain ⟨d', h1, h2, h3, h4⟩ := ih (j0 + 1) d1 (by omega) (by omega)
      refine ⟨d', h1, by omega, fun k hk => by rw [h3 k hk, o1 k hk], ?_⟩
      intro j
      rw [h4 j]
      by_cases hc : j0 + 1 ≤ j ∧ j < j0 + 1 + rest.length ∧ j ≠ i
      · have hc' : j0 ≤ j ∧ j < j0 + (linkType :: rest).length ∧ j ≠ i := by
          simp only [List.length_cons]
          omega
        rw [if_pos hc, if_pos hc']
        have : j - j0 = (j - (j0 + 1)) + 1 := by omega
        rw [this]
        simp [List.getD]
      · rw [if_neg hc, s1]
        by_cases hj : j = j0
        · subst hj
          have hc' : j ≤ j ∧ j < j + (linkType :: rest).length ∧ j ≠ i := by
            simp only [List.length_cons]
            refine ⟨le_refl _, by omega, fun e => hij e.symm⟩
          rw [if_pos hc', mapGet_mapSet_self]
          simp [List.getD]
        · have hc' : ¬ (j0 ≤ j ∧ j < j0 + (linkType :: rest).length ∧ j ≠ i) := by
            simp only [List.length_cons]
            omega
          rw [if_neg hc', mapGet_mapSet_ne _ _ _ _ hj]

theorem rowLoop_spec (matrix : List (List Int)) :
    ∀ (i0 : Nat) (devices : List Device), (∀ row ∈ matrix, row.length = devices.length) →
      i0 + matrix.length ≤ devices.length →
      ∃ devices', rowLoop i0 matrix devices = some devices' ∧
        devices'.length = devices.length ∧
        (∀ k, (k < i0 ∨ i0 + matrix.length ≤ k) → devices'[k]? = devices[k]?) ∧
        ∀ i, i0 ≤ i → i < i0 + matrix.length → ∀ j,
          mapGet (linksAt devices' i) j =
            if j < devices.length ∧ j ≠ i then
              some [{ GPU := j, Type_ := toP2PLinkType ((matrix.getD (i - i0) []).getD j 0) }]
            else mapGet (linksAt devices i) j := by
  induction matrix with
  | nil =>
    intro i0 devices _ _
    refine ⟨devices, rfl, rfl, fun _ _ => rfl, ?_⟩
    intro i h1 h2
    simp only [List.length_nil] at h2
    omega
  | cons links rest ih =>
    intro i0 devices hrows hlen
    simp only [List.length_cons] at hlen
    have hl : links.length = devices.length := hrows links (List.mem_cons_self _ _)
    obtain ⟨d1, e1, l1, o1, s1⟩ := linkLoop_spec i0 links 0 devices (by omega) (by omega)
    obtain ⟨d', h1, h2, h3, h4⟩ := ih (i0 + 1) d1
      (fun row hr => by rw [l1]; exact hrows row (List.mem_cons_of_mem _ hr)) (by omega)
    simp only [rowLoop, e1]
    refine ⟨d', h1, by omega, ?_, ?_⟩
    · intro k hk
      simp only [List.length_cons] at hk
      rw [h3 k (by omega), o1 k (by omega)]
    · intro i hi1 hi2 j
      simp only [List.length_cons] at hi2
      by_cases hi : i = i0
      · subst hi
        have : linksAt d' i = linksAt d1 i := by
          simp only [linksAt]
          rw [h3 i (Or.inl (by omega))]
        rw [this, s1 j]
        simp only [Nat.sub_self, Nat.zero_le, true_and, Nat.zero_add, hl]
        rfl
      · rw [h4 i (by omega) (by omega) j, l1]
        have e : i - i0 = (i - (i0 + 1)) + 1 := by omega
        have : linksAt d1 i = linksAt devices i := by
          simp only [linksAt]
          rw [o1 i hi]
        rw [this, e]
        simp [List.getD]

theorem getD_mem {α : Type} (l : List α) (i : Nat) (d : α) (h : i < l.length) :
    l.getD i d ∈ l := by
  rw [List.getD_eq_getElem _ _ h]
  exact List.getElem_mem h

theorem validateSlice_of_rows {matrix : List (List Int)} {n : Nat}
    (hcols : ∀ row ∈ matrix, row.length = n) :
    validateSlice matrix (fun matrix1 matrix2 => matrix1.length == matrix2.length) = true := by
  rw [validateSlice_eq_true_iff]
  intro i j hij hj
  have h1 := hcols _ (getD_mem matrix i [] (by omega))
  have h2 := hcols _ (getD_mem matrix j [] hj)
  rw [h1, h2]
  exact beq_self_eq_true n

theorem mapGet_linksAt_init (n i j : Nat) :
    mapGet (linksAt ((List.range n).map newDevice) i) j = none := by
  simp only [linksAt]
  by_cases h : i < n
  · simp [List.getElem?_map, List.getElem?_range h, newDevice, mapGet]
  · have : ((List.range n).map newDevice)[i]? = none := by
      apply List.getElem?_eq_none
      simp
      omega
    simp [this, mapGet]

/-- A matrix with at least one row, all rows of length `n`, and at most `n` rows is accepted,
and row `i` decides the link map of device `i`. -/
theorem NewDeviceList_of_rows (matrix : List (List Int)) (n : Nat) (hne : matrix.length ≠ 0)
    (hcols : ∀ row ∈ matrix, row.length = n) (hrows : matrix.length ≤ n) :
    ∃ devices, NewDeviceList matrix = Outcome.ok devices ∧ devices.length = n ∧
      ∀ i, i < matrix.length → ∀ j,
        mapGet (linksAt devices i) j =
          if j < n ∧ j ≠ i then
            some [{ GPU := j, Type_ := toP2PLinkType (cell matrix i j) }]
          else none := by
  have h0 : (matrix.getD 0 []).length = n := hcols _ (getD_mem matrix 0 [] (by omega))
  have hinit : ((List.range n).map newDevice).length = n := by simp
  obtain ⟨d', h1, h2, _, h4⟩ := rowLoop_spec matrix 0 ((List.range n).map newDevice)
    (fun row hr => by rw [hinit]; exact hcols row hr) (by omega)
  refine ⟨d', ?_, by omega, ?_⟩
  · unfold NewDeviceList
    rw [if_neg hne, validateSlice_of_rows hcols]
    simp only [Bool.not_true, Bool.false_eq_true, if_false]
    rw [h0, h1]
  · intro i hi j
    rw [h4 i (Nat.zero_le _) (by omega) j, hinit, mapGet_linksAt_init]
    rfl

theorem toP2PLinkType_cast {x : Int} (h0 : 0 ≤ x) (h1 : isGoInt x) :
    ((toP2PLinkType x : Nat) : Int) = x := by
  unfold toP2PLinkType
  have hx : x < 2 ^ 64 := by
    have := h1.2
    omega
  rw [Int.emod_eq_of_lt h0 hx, Int.toNat_of_nonneg h0]

/-- C4: for a square `n x n` matrix (`n ≥ 1`) of Go integers whose off-diagonal cells are not
negative, `NewDeviceList` succeeds and, for `i ≠ j`, `Links[j]` of device `i` is a list of
exactly one link, whose type is the cell `[i][j]` and whose target is position `j` of the
returned list, the device of `Index j`; in particular the two directions of a pair carry
different types when the two cells differ. -/
theorem NewDeviceList_links (matrix : List (List Int)) (n : Nat) (hn : 1 ≤ n)
    (hrows : matrix.length = n) (hcols : ∀ row ∈ matrix, row.length = n)
    (hint : ∀ row ∈ matrix, ∀ x ∈ row, isGoInt x)
    (hpos : ∀ i, i < n → ∀ j, j < n → i ≠ j → 0 ≤ cell matrix i j) :
    ∃ devices, NewDeviceList matrix = Outcome.ok devices ∧ devices.length = n ∧
      ∀ (i j : Nat) (hi : i < devices.length) (hj : j < devices.length), i ≠ j →
        (devices[j]).Index = j ∧
        ∃ t t' : P2PLinkType,
          mapGet (devices[i]).Links j = some [{ GPU := j, Type_ := t }] ∧
          mapGet (devices[j]).Links i = some [{ GPU := i, Type_ := t' }] ∧
          (t : Int) = cell matrix i j ∧ (t' : Int) = cell matrix j i ∧
          (cell matrix i j ≠ cell matrix j i → t ≠ t') := by
  obtain ⟨devices, hok, hlen, hlinks⟩ :=
    NewDeviceList_of_rows matrix n (by omega) hcols (by omega)
  refine ⟨devices, hok, hlen, ?_⟩
  intro i j hi hj hij
  have hcell : ∀ a b, a < n → b < n → isGoInt (cell matrix a b) := by
    intro a b ha hb
    have hr := getD_mem matrix a [] (by omega)
    have hrl := hcols _ hr
    exact hint _ hr _ (getD_mem _ b 0 (by omega))
  have hget : ∀ a b (ha : a < devices.length), b < n → b ≠ a →
      mapGet (devices[a]).Links b =
        some [{ GPU := b, Type_ := toP2PLinkType (cell matrix a b) }] := by
    intro a b ha hb hab
    have := hlinks a (by omega) b
    rw [if_pos ⟨hb, hab⟩] at this
    simpa [linksAt, List.getElem?_eq_getElem ha] using this
  refine ⟨(NewDeviceList_index_at matrix devices hok).2 j hj, ?_⟩
  have c1 := toP2PLinkType_cast (hpos i (by omega) j (by omega) hij)
    (hcell i j (by omega) (by omega))
  have c2 := toP2PLinkType_cast (hpos j (by omega) i (by omega) (fun e => hij e.symm))
    (hcell j i (by omega) (by omega))
  refine ⟨toP2PLinkType (cell matrix i j), toP2PLinkType (cell matrix j i),
    hget i j hi (by omega) (fun e => hij e.symm), hget j i hj (by omega) hij, c1, c2, ?_⟩
  intro hne heq
  apply hne
  rw [← c1, ← c2, heq]

theorem NewDeviceList_links_witness :
    ∃ devices, NewDeviceList correctMatrix = Outcome.ok devices ∧ devices.length = 4 ∧
      ∀ (i j : Nat) (hi : i < devices.length) (hj : j < devices.length), i ≠ j →
        (devices[j]).Index = j ∧
        ∃ t t' : P2PLinkType,
          mapGet (devices[i]).Links j = some [{ GPU := j, Type_ := t }] ∧
          mapGet (devices[j]).Links i = some [{ GPU := i, Type_ := t' }] ∧
          (t : Int) = cell correctMatrix i j ∧ (t' : Int) = cell correctMatrix j i ∧
          (cell correctMatrix i j ≠ cell correctMatrix j i → t ≠ t') :=
  NewDeviceList_links correctMatrix 4 (by decide) (by decide) (by decide) (by decide)
    (by decide)

/-- The two directions of a pair keep their own cell: `asymmetricMatrix` gives device 0 a link
of type 8 to device 1 and device 1 a link of type 7 to device 0. -/
theorem NewDeviceList_asymmetric :
    NewDeviceList asymmetricMatrix =
      Outcome.ok [{ Index := 0, Links := [(1, [{ GPU := 1, Type_ := 8 }])] },
        { Index := 1, Links := [(0, [{ GPU := 0, Type_ := 7 }])] }] := by
  decide

/-! ## Theorems about the allocator -/

theorem mem_combinations {α : Type} (l : List α) :
    ∀ (k : Nat) (c : List α), c ∈ combinations k l ↔ c.Sublist l ∧ c.length = k := by
  induction l with
  | nil =>
    intro k c
    cases k with
    | zero =>
      simp only [combinations, List.mem_singleton, List.sublist_nil]
      constructor
      · intro h
        subst h
        exact ⟨rfl, rfl⟩
      · intro h
        exact h.1
    | succ k =>
      simp only [combinations, List.not_mem_nil, List.sublist_nil, false_iff, not_and]
      intro h
      subst h
      simp
  | cons x xs ih =>
    intro k c
    cases k with
    | zero =>
      simp only [combinations, List.mem_singleton, List.length_eq_zero]
      constructor
      · intro h
        subst h
        exact ⟨List.nil_sublist _, rfl⟩
      · intro h
        exact h.2
    | succ k =>
      simp only [combinations, List.mem_append, List.mem_map]
      constructor
      · rintro (⟨c', hc', rfl⟩ | h)
        · obtain ⟨h1, h2⟩ := (ih k c').1 hc'
          exact ⟨h1.cons₂ x, by simp [h2]⟩
        · obtain ⟨h1, h2⟩ := (ih (k + 1) c).1 h
          exact ⟨h1.cons x, h2⟩
      · rintro ⟨hs, hl⟩
        cases hs with
        | cons _ h => exact Or.inr ((ih (k + 1) c).2 ⟨h, hl⟩)
        | cons₂ _ h =>
          rename_i c'
          refine Or.inl ⟨c', (ih k c').2 ⟨h, ?_⟩, rfl⟩
          simpa using hl

theorem combinations_length_self {α : Type} (l : List α) : combinations l.length l = [l] := by
  induction l with
  | nil => rfl
  | cons x xs ih =>
    have h : combinations (xs.length + 1) xs = [] := by
      apply List.eq_nil_iff_forall_not_mem.2
      intro c hc
      obtain ⟨h1, h2⟩ := (mem_combinations xs _ c).1 hc
      have := h1.length_le
      omega
    simp [combinations, ih, h]

theorem combinations_eq_nil {α : Type} (l : List α) (k : Nat) (h : l.length < k) :
    combinations k l = [] := by
  apply List.eq_nil_iff_forall_not_mem.2
  intro c hc
  obtain ⟨h1, h2⟩ := (mem_combinations l k c).1 hc
  have := h1.length_le
  omega

theorem combinations_ne_nil {α : Type} (l : List α) (k : Nat) (h : k ≤ l.length) :
    combinations k l ≠ [] := by
  intro he
  have : l.take k ∈ combinations k l :=
    (mem_combinations l k _).2 ⟨List.take_sublist k l, by simp [h]⟩
  rw [he] at this
  exact List.not_mem_nil _ this

theorem foldl_better_some (cs : List (List Device × Int)) :
    ∀ b : List Device × Int, ∃ r, cs.foldl better (some b) = some r ∧ (r = b ∨ r ∈ cs) ∧
      b.2 ≤ r.2 ∧ ∀ c ∈ cs, c.2 ≤ r.2 := by
  induction cs with
  | nil =>
    intro b
    exact ⟨b, rfl, Or.inl rfl, le_refl _, fun c hc => absurd hc (List.not_mem_nil _)⟩
  | cons c cs ih =>
    intro b
    simp only [List.foldl_cons, better]
    by_cases h : b.2 < c.2
    · rw [if_pos h]
      obtain ⟨r, h1, h2, h3, h4⟩ := ih c
      refine ⟨r, h1, ?_, by omega, ?_⟩
      · rcases h2 with h2 | h2
        · exact Or.inr (by rw [h2]; exact List.mem_cons_self _ _)
        · exact Or.inr (List.mem_cons_of_mem _ h2)
      · intro c' hc'
        rcases List.mem_cons.1 hc' with e | e
        · rw [e]; exact h3
        · exact h4 c' e
    · rw [if_neg h]
      obtain ⟨r, h1, h2, h3, h4⟩ := ih b
      refine ⟨r, h1, ?_, h3, ?_⟩
      · rcases h2 with h2 | h2
        · exact Or.inl h2
        · exact Or.inr (List.mem_cons_of_mem _ h2)
      · intro c' hc'
        rcases List.mem_cons.1 hc' with e | e
        · rw [e]; omega
        · exact h4 c' e

theorem foldl_better_none (cs : List (List Device × Int)) (hne : cs ≠ []) :
    ∃ r, cs.foldl better none = some r ∧ r ∈ cs ∧ ∀ c ∈ cs, c.2 ≤ r.2 := by
  cases cs with
  | nil => exact absurd rfl hne
  | cons c cs =>
    simp only [List.foldl_cons, better]
    obtain ⟨r, h1, h2, h3, h4⟩ := foldl_better_some cs c
    refine ⟨r, h1, ?_, ?_⟩
    · rcases h2 with h2 | h2
      · rw [h2]; exact List.mem_cons_self _ _
      · exact List.mem_cons_of_mem _ h2
    · intro c' hc'
      rcases List.mem_cons.1 hc' with e | e
      · rw [e]; exact h3
      · exact h4 c' e

theorem complete_iff (s : List Device) :
    complete s = true ↔
      ∀ a ∈ s, ∀ b ∈ s, a.Index ≠ b.Index → (mapGet a.Links b.Index).isSome = true := by
  simp only [complete, hasLinkTo, List.all_eq_true, Bool.or_eq_true, beq_iff_eq]
  constructor
  · intro h a ha b hb hne
    rcases h a ha b hb with e | e
    · exact absurd e hne
    · exact e
  · intro h a ha b hb
    by_cases e : a.Index = b.Index
    · exact Or.inl e
    · exact Or.inr (h a ha b hb e)

theorem complete_of_sublist {s t : List Device} (hs : complete s = true) (ht : t.Sublist s) :
    complete t = true := by
  rw [complete_iff] at hs ⊢
  intro a ha b hb
  exact hs a (ht.subset ha) b (ht.subset hb)

theorem candidates_nil (available : List Device) (n : Nat) :
    candidates available [] n = combinations n available := by
  simp [candidates]

theorem filter_complete_combinations {available : List Device} (hc : complete available = true)
    (n : Nat) : (combinations n available).filter complete = combinations n available := by
  apply List.filter_eq_self.2
  intro c hc'
  exact complete_of_sublist hc ((mem_combinations available n c).1 hc').1

/-- The search of `allocate` without preselection on a complete `available`. -/
theorem allocate_search {available : List Device} (hc : complete available = true) (n : Nat)
    (hn : 2 ≤ n) :
    allocate available [] (n : Int) =
      match ((combinations n available).map fun u => (sortByIndex u, setScore u)).foldl
          better none with
      | some r => r
      | none => ([], 0) := by
  have h1 : ¬ ((n : Int) ≤ 0) := by omega
  have h2 : ¬ ((n : Int) = 1 ∧ ([] : List Device) = []) := by omega
  have h3 : ¬ ((n : Int) < (([] : List Device).length : Int)) := by
    simp
  unfold allocate
  rw [if_neg h1, hc, if_neg (by decide : ¬ ((!true) = true)), if_neg h2, if_neg h3,
    Int.toNat_ofNat, candidates_nil, filter_complete_combinations hc]

theorem sortByIndex_perm (u : List Device) : (sortByIndex u).Perm u :=
  List.perm_insertionSort _ u

theorem sortByIndex_sorted (u : List Device) :
    (sortByIndex u).Sorted (fun a b => a.Index ≤ b.Index) :=
  List.sorted_insertionSort _ u

theorem sortByIndex_idem (u : List Device) : sortByIndex (sortByIndex u) = sortByIndex u :=
  (sortByIndex_sorted u).insertionSort_eq

theorem setScore_sortByIndex (u : List Device) : setScore (sortByIndex u) = setScore u := by
  unfold setScore
  rw [sortByIndex_idem]

/-- C6: on a complete `available`, with no preselection and `2 ≤ k ≤ len(available)`,
`allocate` returns `k` devices of `available` (a rearrangement of a subsequence, so distinct
when `available` has no repetition), the score it returns is the pairwise weight sum of that
selection, and no `k`-subset of `available` has a greater pairwise weight sum. -/
theorem allocate_optimal (available : List Device) (k : Nat)
    (hc : complete available = true) (h2 : 2 ≤ k) (hk : k ≤ available.length) :
    ((allocate available [] (k : Int)).1).length = k ∧
      (∃ u, u.Sublist available ∧ ((allocate available [] (k : Int)).1).Perm u) ∧
      (available.Nodup → ((allocate available [] (k : Int)).1).Nodup) ∧
      (allocate available [] (k : Int)).2 = setScore (allocate available [] (k : Int)).1 ∧
      ∀ t : List Device, t.Sublist available → t.length = k →
        setScore t ≤ (allocate available [] (k : Int)).2 := by
  have hne : ((combinations k available).map fun u => (sortByIndex u, setScore u)) ≠ [] := by
    intro h
    exact combinations_ne_nil available k hk (List.map_eq_nil_iff.1 h)
  obtain ⟨r, hr, hmem, hmax⟩ := foldl_better_none _ hne
  obtain ⟨u, hu, rfl⟩ := List.mem_map.1 hmem
  obtain ⟨hsub, hlen⟩ := (mem_combinations available k u).1 hu
  rw [allocate_search hc k h2, hr]
  refine ⟨?_, ⟨u, hsub, sortByIndex_perm u⟩, ?_, (setScore_sortByIndex u).symm, ?_⟩
  · rw [(sortByIndex_perm u).length_eq, hlen]
  · intro hnd
    exact (sortByIndex_perm u).nodup_iff.2 (hnd.sublist hsub)
  · intro t ht htl
    exact hmax (sortByIndex t, setScore t)
      (List.mem_map.2 ⟨t, (mem_combinations available k t).2 ⟨ht, htl⟩, rfl⟩)

theorem allocate_optimal_witness :
    allocate [device0, device1, device2, device3] [] 2 = ([device2, device3], 400) ∧
      allocate [device0, device1, device2, device3] [] 3 = ([device0, device2, device3], 700) ∧
      ∀ t : List Device, t.Sublist [device0, device1, device2, device3] → t.length = 3 →
        setScore t ≤ (allocate [device0, device1, device2, device3] [] ((3 : Nat) : Int)).2 :=
  ⟨by decide, by decide,
    (allocate_optimal [device0, device1, device2, device3] 3 (by decide) (by decide)
      (by decide)).2.2.2.2⟩

/-- C8: when some device of `available` has no link entry for another device of `available`,
`allocate` returns the empty selection and score 0, whatever the count and the preselection. -/
theorem allocate_incomplete (available preselected : List Device) (count : Int)
    (a b : Device) (ha : a ∈ available) (hb : b ∈ available) (hne : a.Index ≠ b.Index)
    (hmiss : mapGet a.Links b.Index = none) :
    allocate available preselected count = ([], 0) := by
  have hc : complete available = false := by
    by_contra h
    rw [Bool.not_eq_false, complete_iff] at h
    have := h a ha b hb hne
    rw [hmiss] at this
    cases this
  unfold allocate
  by_cases h1 : count ≤ 0
  · rw [if_pos h1]
  · rw [if_neg h1, hc]
    rfl

theorem allocate_incomplete_witness :
    allocate [device0, device1, invalidDevice2, device3] [] 2 = ([], 0) ∧
      complete [device0, device1] = true :=
  ⟨allocate_incomplete [device0, device1, invalidDevice2, device3] [] 2 invalidDevice2 device1
    (by decide) (by decide) (by decide) (by decide), by decide⟩

/-- C9: on a non-empty complete `available`, count 1 without preselection returns the
one-element selection of the first device of `available`, with score 0. -/
theorem allocate_one (d : Device) (rest : List Device)
    (hc : complete (d :: rest) = true) :
    allocate (d :: rest) [] 1 = ([d], 0) := by
  unfold allocate
  rw [if_neg (by decide : ¬ ((1 : Int) ≤ 0)), hc, if_neg (by decide : ¬ ((!true) = true)),
    if_pos ⟨rfl, rfl⟩]

theorem allocate_one_witness :
    allocate [device0, device1, device2, device3] [] 1 = ([device0], 0) :=
  allocate_one device0 [device1, device2, device3] (by decide)

/-- C10: on a complete `available` of `N ≥ 2` devices, count `N` without preselection returns
all `N` devices in ascending index order, and the score is the sum of the link weights over
every unordered pair of them. -/
theorem allocate_all (available : List Device) (hc : complete available = true)
    (hN : 2 ≤ available.length) :
    ((allocate available [] (available.length : Int)).1).Perm available ∧
      ((allocate available [] (available.length : Int)).1).Sorted
        (fun a b => a.Index ≤ b.Index) ∧
      (allocate available [] (available.length : Int)).2 =
        pairsSum (allocate available [] (available.length : Int)).1 := by
  rw [allocate_search hc _ hN, combinations_length_self]
  exact ⟨sortByIndex_perm available, sortByIndex_sorted available, rfl⟩

theorem allocate_all_witness :
    allocate [device0, device1, device2, device3] [] 4 =
        ([device0, device1, device2, device3], 1100) ∧
      (allocate [device0, device1, device2, device3] [] 4).2 =
        pairsSum (allocate [device0, device1, device2, device3] [] 4).1 ∧
      pairsSum [device0, device1, device2, device3] = 200 + 200 + 100 + 100 + 100 + 400 :=
  ⟨by decide,
    (allocate_all [device0, device1, device2, device3] (by decide) (by decide)).2.2,
    by decide⟩

/-- C7: the link scorer gives weight 0 to every code below `SingleNVLINKLink` (the codes 0
to 6), weight `100 * k` to the code `6 + k` of `k` parallel NVLinks for `k = 1..18`, and a
weight that is never negative to every code. -/
theorem linkScore_weights :
    (∀ code : P2PLinkType, code < SingleNVLINKLink → linkScore code = 0) ∧
      (∀ k : Nat, 1 ≤ k → k ≤ 18 → linkScore (P2PLinkSameBoard + k) = 100 * (k : Int)) ∧
      ∀ code : P2PLinkType, 0 ≤ linkScore code := by
  refine ⟨?_, ?_, ?_⟩
  · intro code h
    simp [linkScore, h]
  · intro k h1 _
    have : ¬ (P2PLinkSameBoard + k < SingleNVLINKLink) := by
      show ¬ (6 + k < 7)
      omega
    rw [linkScore, if_neg this]
    show (((6 + k - 6 : Nat) : Int)) * 100 = 100 * (k : Int)
    rw [Nat.add_sub_cancel_left]
    ring
  · intro code
    unfold linkScore
    split
    · exact le_refl _
    · positivity

theorem linkScore_weights_witness :
    linkScore SingleNVLINKLink = 100 ∧ linkScore TwoNVLINKLinks = 200 ∧
      linkScore FourNVLINKLinks = 400 ∧ linkScore EighteenNVLINKLinks = 1800 ∧
      linkScore P2PLinkSameBoard = 0 :=
  ⟨linkScore_weights.2.1 1 (by decide) (by decide),
    linkScore_weights.2.1 2 (by decide) (by decide),
    linkScore_weights.2.1 4 (by decide) (by decide),
    linkScore_weights.2.1 18 (by decide) (by decide),
    linkScore_weights.1 6 (by decide)⟩

/-! ## Theorems about the plugin -/

theorem wrap64_eq {x : Int} (h1 : -(2 ^ 63) ≤ x) (h2 : x < 2 ^ 63) : wrap64 x = x := by
  unfold wrap64
  omega

theorem tdiv_bounds (a m : Int) (hm : 0 < m) :
    (0 ≤ a → 0 ≤ Int.tdiv a m ∧ Int.tdiv a m ≤ a) ∧
      (a ≤ 0 → a ≤ Int.tdiv a m ∧ Int.tdiv a m ≤ 0) := by
  constructor
  · intro ha
    rw [Int.tdiv_eq_ediv ha (le_of_lt hm)]
    exact ⟨Int.ediv_nonneg ha (le_of_lt hm), Int.ediv_le_self m ha⟩
  · intro ha
    have hn : 0 ≤ -a := by omega
    have e : Int.tdiv a m = -(Int.tdiv (-a) m) := by
      rw [Int.neg_tdiv, neg_neg]
    rw [e, Int.tdiv_eq_ediv hn (le_of_lt hm)]
    have h1 := Int.ediv_nonneg hn (le_of_lt hm)
    have h2 := Int.ediv_le_self m hn
    omega

/-- The arithmetic at the end of `Score`, as a function of the quota and of the raw score. -/
theorem score_arith (q s : Int) (hq2 : 2 ≤ q)
    (hfit : s = 0 ∨ (q * (q - 1) * 1800 < 2 ^ 63 ∧ -(2 ^ 63) ≤ 100 * s ∧ 100 * s < 2 ^ 63)) :
    (if wrap64 (Int.tdiv (wrap64 (wrap64 (q * wrap64 (q - 1)) * maxScoreFactor)) 2) = 0 then
        (some ((0 : Int), Status.nil) : Option (Int × Status))
      else
        some (wrap64 (Int.tdiv (wrap64 (wrap64 s * 100))
          (wrap64 (Int.tdiv (wrap64 (wrap64 (q * wrap64 (q - 1)) * maxScoreFactor)) 2))),
          Status.nil)) =
      some (Int.tdiv (100 * s) (q * (q - 1) * 1800 / 2), Status.nil) := by
  rcases hfit with h0 | ⟨hq, hs1, hs2⟩
  · subst h0
    have w0 : wrap64 0 = 0 := by decide
    simp [w0]
  · have hP : 2 ≤ q * (q - 1) := by nlinarith
    have hq1 : q ≤ q * (q - 1) := by nlinarith
    generalize hPd : q * (q - 1) = P at hq hP hq1
    have e1 : wrap64 (q - 1) = q - 1 := wrap64_eq (by omega) (by omega)
    have e2 : wrap64 P = P := wrap64_eq (by omega) (by omega)
    have e3 : wrap64 (P * 1800) = P * 1800 := wrap64_eq (by omega) (by omega)
    have e4 : Int.tdiv (P * 1800) 2 = P * 1800 / 2 :=
      Int.tdiv_eq_ediv (by omega) (by decide)
    have e5 : wrap64 (P * 1800 / 2) = P * 1800 / 2 := wrap64_eq (by omega) (by omega)
    have hm : 0 < P * 1800 / 2 := by omega
    have e6 : wrap64 s = s := wrap64_eq (by omega) (by omega)
    have e7 : wrap64 (s * 100) = s * 100 := wrap64_eq (by omega) (by omega)
    have hb := tdiv_bounds (s * 100) (P * 1800 / 2) hm
    have e8 : wrap64 (Int.tdiv (s * 100) (P * 1800 / 2)) = Int.tdiv (s * 100) (P * 1800 / 2) := by
      rcases le_total 0 (s * 100) with h | h
      · have := hb.1 h
        exact wrap64_eq (by omega) (by omega)
      · have := hb.2 h
        exact wrap64_eq (by omega) (by omega)
    simp only [maxScoreFactor, e1, hPd, e2, e3, e4, e5, e6, e7, e8]
    rw [if_neg (by omega), mul_comm s 100]

theorem NewDeviceList_ok_length {matrix : List (List Int)} {devices : List Device}
    (h : NewDeviceList matrix = Outcome.ok devices) : matrix.length ≠ 0 := by
  intro h0
  simp [NewDeviceList, h0] at h

/-- C5, as amended: for a pod whose `nvidia.com/gpu` limit is `q ≥ 2` and a node whose topology
annotation decodes to a matrix that `NewDeviceList` accepts, `Score` returns the nil (success)
status and the integer quotient `(100 * s) / (q * (q - 1) * 1800 / 2)`, where `s` is the raw
score of `allocate(devices, nil, q)`; for `s ≥ 0` this is the floor of
`100 * s / (900 * q * (q - 1))`. The condition added to the claim: `s = 0`, or the 64-bit
products `q * (q - 1) * 1800` and `100 * s` do not overflow. -/
theorem Score_quotient (h : Host) (pod : Pod) (nodeName : String) (nodeInfo : Node)
    (labels : List (String × String)) (matrix : List (List Int)) (devices : List Device)
    (q s : Int)
    (hnode : h.NodeInfosGet nodeName = Except.ok nodeInfo)
    (hann : nodeInfo.Annotations = some labels)
    (hkey : ((mapGet labels TOPOLOGY_INFO_KEY).getD "").length ≠ 0)
    (hdec : h.Unmarshal ((mapGet labels TOPOLOGY_INFO_KEY).getD "") = Except.ok matrix)
    (hdev : NewDeviceList matrix = Outcome.ok devices)
    (hq : (mapGet (h.PodLimits pod) nvidiaGPU).getD 0 = q) (hq2 : 2 ≤ q)
    (hs : (allocate devices [] q).2 = s)
    (hfit : s = 0 ∨ (q * (q - 1) * 1800 < 2 ^ 63 ∧ -(2 ^ 63) ≤ 100 * s ∧ 100 * s < 2 ^ 63)) :
    Score h pod nodeName =
        some (Int.tdiv (100 * s) (q * (q - 1) * 1800 / 2), Status.nil) ∧
      (0 ≤ s → Int.tdiv (100 * s) (q * (q - 1) * 1800 / 2) = 100 * s / (900 * q * (q - 1))) := by
  have hden : q * (q - 1) * 1800 / 2 = 900 * q * (q - 1) := by
    have : q * (q - 1) * 1800 = 2 * (900 * q * (q - 1)) := by ring
    rw [this, Int.mul_ediv_cancel_left _ (by decide)]
  constructor
  · have htop : getTopologies h nodeInfo = Except.ok matrix := by
      simp only [getTopologies, hann]
      rw [if_pos hkey]
      simp only [decodeFloatSlice, hdec]
    simp only [Score, hnode, htop]
    rw [if_neg (NewDeviceList_ok_length hdev)]
    simp only [hdev, hq, hs]
    exact score_arith q s hq2 hfit
  · intro h0
    have hP : 2 ≤ q * (q - 1) := by nlinarith
    rw [hden]
    apply Int.tdiv_eq_ediv (by omega)
    have : 0 ≤ 900 * (q * (q - 1)) := by omega
    rw [mul_assoc]
    exact this

theorem Score_quotient_witness :
    (Score testHost (gpuPod 2) "node-0" =
        some (Int.tdiv (100 * 400) (2 * (2 - 1) * 1800 / 2), Status.nil) ∧
      Int.tdiv (100 * 400) (2 * (2 - 1) * 1800 / 2) = 22) ∧
    (Score testHost (gpuPod 2) "node-1" =
        some (Int.tdiv (100 * 1800) (2 * (2 - 1) * 1800 / 2), Status.nil) ∧
      Int.tdiv (100 * 1800) (2 * (2 - 1) * 1800 / 2) = 100) ∧
    (Score testHost (gpuPod 3) "node-1" =
        some (Int.tdiv (100 * 2800) (3 * (3 - 1) * 1800 / 2), Status.nil) ∧
      Int.tdiv (100 * 2800) (3 * (3 - 1) * 1800 / 2) = 51) ∧
    (Score testHost (gpuPod 4) "node-0" =
        some (Int.tdiv (100 * 1100) (4 * (4 - 1) * 1800 / 2), Status.nil) ∧
      Int.tdiv (100 * 1100) (4 * (4 - 1) * 1800 / 2) = 10) :=
  ⟨⟨(Score_quotient testHost (gpuPod 2) "node-0" _ _ node0Matrix (devicesOf node0Matrix) 2 400
      rfl rfl (by decide) rfl (by decide) rfl (by decide) (by decide)
      (Or.inr ⟨by decide, by decide, by decide⟩)).1, by decide⟩,
    ⟨(Score_quotient testHost (gpuPod 2) "node-1" _ _ node1Matrix (devicesOf node1Matrix) 2 1800
      rfl rfl (by decide) rfl (by decide) rfl (by decide) (by decide)
      (Or.inr ⟨by decide, by decide, by decide⟩)).1, by decide⟩,
    ⟨(Score_quotient testHost (gpuPod 3) "node-1" _ _ node1Matrix (devicesOf node1Matrix) 3 2800
      rfl rfl (by decide) rfl (by decide) rfl (by decide) (by decide)
      (Or.inr ⟨by decide, by decide, by decide⟩)).1, by decide⟩,
    ⟨(Score_quotient testHost (gpuPod 4) "node-0" _ _ node0Matrix (devicesOf node0Matrix) 4 1100
      rfl rfl (by decide) rfl (by decide) rfl (by decide) (by decide)
      (Or.inr ⟨by decide, by decide, by decide⟩)).1, by decide⟩⟩

/-- C5, the counterexample: the matrix `bigCodeMatrix` is accepted, and for a pod of limit 2
the raw score of `allocate` is `99999999999999400`; the quotient of the claim is
`5555555555555522`, but the product `100 * s` does not fit in 64 bits and wraps around, and
`Score` returns `-4692635596505339` with the nil status. -/
theorem Score_overflow_counterexample :
    NewDeviceList bigCodeMatrix =
        Outcome.ok
          [{ Index := 0, Links := [(1, [{ GPU := 1, Type_ := 1000000000000000 }])] },
           { Index := 1, Links := [(0, [{ GPU := 0, Type_ := 1000000000000000 }])] }] ∧
      (allocate
          [{ Index := 0, Links := [(1, [{ GPU := 1, Type_ := 1000000000000000 }])] },
           { Index := 1, Links := [(0, [{ GPU := 0, Type_ := 1000000000000000 }])] }]
          [] 2).2 = 99999999999999400 ∧
      Int.tdiv (100 * 99999999999999400) (2 * (2 - 1) * 1800 / 2) = 5555555555555522 ∧
      Score (hostWith (some [(TOPOLOGY_INFO_KEY, bigCodeTopology)]) (Except.ok bigCodeMatrix))
          (gpuPod 2) "node-0" = some (-4692635596505339, Status.nil) ∧
      Score (hostWith (some [(TOPOLOGY_INFO_KEY, bigCodeTopology)]) (Except.ok bigCodeMatrix))
          (gpuPod 2) "node-0" ≠
        some (Int.tdiv (100 * 99999999999999400) (2 * (2 - 1) * 1800 / 2), Status.nil) := by
  decide

/-- The status of `Score` for a node that the snapshot does not know. -/
theorem Score_unknown_node :
    Score unknownNodeHost (gpuPod 2) "node-0" =
      some (0, Status.status Code.Error
        ("failed to get node " ++ quoted "node-0" ++ " from Snapshot: nodeinfo not found")) ∧
      (quoted "node-0").length = 8 := by
  decide

/-- The scores that `TestGPUTopologyAware` wants for 2, 3 and 4 GPUs on the three nodes. -/
theorem Score_test_table :
    ([2, 3, 4].map fun q =>
        ["node-0", "node-1", "node-2"].map fun n => Score testHost (gpuPod q) n) =
      [[some (22, Status.nil), some (100, Status.nil), some (11, Status.nil)],
       [some (12, Status.nil), some (51, Status.nil), some (11, Status.nil)],
       [some (10, Status.nil), some (33, Status.nil), some (11, Status.nil)]] := by
  decide

theorem getTopologies_decoded {h : Host} {nodeInfo : Node} {labels : List (String × String)}
    (hann : nodeInfo.Annotations = some labels)
    (hkey : ((mapGet labels TOPOLOGY_INFO_KEY).getD "").length ≠ 0) :
    getTopologies h nodeInfo =
      decodeFloatSlice h ((mapGet labels TOPOLOGY_INFO_KEY).getD "") := by
  simp only [getTopologies, hann]
  rw [if_pos hkey]

theorem decodeFloatSlice_ok {h : Host} {s : String} {matrix : List (List Int)}
    (hdec : h.Unmarshal s = Except.ok matrix) : decodeFloatSlice h s = Except.ok matrix := by
  simp only [decodeFloatSlice, hdec]

theorem decodeFloatSlice_error {h : Host} {s err : String}
    (hdec : h.Unmarshal s = Except.error err) : decodeFloatSlice h s = Except.error err := by
  simp only [decodeFloatSlice, hdec]

/-- What `Score` returns once the node is found and its matrix is known. -/
theorem Score_of_topologies {h : Host} {pod : Pod} {nodeName : String} {nodeInfo : Node}
    {matrix : List (List Int)}
    (hnode : h.NodeInfosGet nodeName = Except.ok nodeInfo)
    (htop : getTopologies h nodeInfo = Except.ok matrix) :
    Score h pod nodeName =
      if matrix.length = 0 then some (0, Status.nil)
      else
        match NewDeviceList matrix with
        | Outcome.error msg => some (0, Status.status Code.Error msg)
        | Outcome.panicked => none
        | Outcome.ok devices =>
          let quota : Int := (mapGet (h.PodLimits pod) nvidiaGPU).getD 0
          let score := (allocate devices [] quota).2
          let maxScore :=
            wrap64 (Int.tdiv (wrap64 (wrap64 (quota * wrap64 (quota - 1)) * maxScoreFactor)) 2)
          if maxScore = 0 then some (0, Status.nil)
          else some (wrap64 (Int.tdiv (wrap64 (wrap64 score * 100)) maxScore), Status.nil) := by
  simp only [Score, hnode, htop]

/-- C11: for a pod whose `nvidia.com/gpu` limit is 1 and a node whose topology annotation
decodes to a matrix that `NewDeviceList` accepts, `Score` returns 0 with the nil (success)
status, whatever the link codes of the matrix are. -/
theorem Score_one_gpu (h : Host) (pod : Pod) (nodeName : String) (nodeInfo : Node)
    (labels : List (String × String)) (matrix : List (List Int)) (devices : List Device)
    (hnode : h.NodeInfosGet nodeName = Except.ok nodeInfo)
    (hann : nodeInfo.Annotations = some labels)
    (hkey : ((mapGet labels TOPOLOGY_INFO_KEY).getD "").length ≠ 0)
    (hdec : h.Unmarshal ((mapGet labels TOPOLOGY_INFO_KEY).getD "") = Except.ok matrix)
    (hdev : NewDeviceList matrix = Outcome.ok devices)
    (hq : (mapGet (h.PodLimits pod) nvidiaGPU).getD 0 = 1) :
    Score h pod nodeName = some (0, Status.nil) := by
  have htop : getTopologies h nodeInfo = Except.ok matrix := by
    rw [getTopologies_decoded hann hkey, decodeFloatSlice_ok hdec]
  rw [Score_of_topologies hnode htop, if_neg (NewDeviceList_ok_length hdev)]
  simp only [hdev, hq]
  have : wrap64 (Int.tdiv (wrap64 (wrap64 (1 * wrap64 (1 - 1)) * maxScoreFactor)) 2) = 0 := by
    decide
  rw [if_pos this]

theorem Score_one_gpu_witness :
    Score (hostWith (some [(TOPOLOGY_INFO_KEY, node0Topology)]) (Except.ok node0Matrix))
        (gpuPod 1) "node-0" = some (0, Status.nil) ∧
      Score (hostWith (some [(TOPOLOGY_INFO_KEY, node1TopologyOneGPU)])
        (Except.ok node1MatrixOneGPU)) (gpuPod 1) "node-1" = some (0, Status.nil) ∧
      Score (hostWith (some [(TOPOLOGY_INFO_KEY, node2Topology)]) (Except.ok node2Matrix))
        (gpuPod 1) "node-2" = some (0, Status.nil) :=
  ⟨Score_one_gpu _ (gpuPod 1) "node-0" _ _ node0Matrix (devicesOf node0Matrix)
      rfl rfl (by decide) rfl (by decide) (by decide),
    Score_one_gpu _ (gpuPod 1) "node-1" _ _ node1MatrixOneGPU (devicesOf node1MatrixOneGPU)
      rfl rfl (by decide) rfl (by decide) (by decide),
    Score_one_gpu _ (gpuPod 1) "node-2" _ _ node2Matrix (devicesOf node2Matrix)
      rfl rfl (by decide) rfl (by decide) (by decide)⟩

/-- C12: for a node without annotations, without the topology annotation, or with the empty
string as topology annotation, `getTopologies` gives the nil matrix without decoding anything
and `Score` returns 0 with the nil (success) status for every pod; `NewDeviceList` is not asked,
since it answers the nil matrix with an error. -/
theorem Score_no_topology (h : Host) (pod : Pod) (nodeName : String) (nodeInfo : Node)
    (hnode : h.NodeInfosGet nodeName = Except.ok nodeInfo)
    (hno : nodeInfo.Annotations = none ∨
      ∃ labels, nodeInfo.Annotations = some labels ∧
        (mapGet labels TOPOLOGY_INFO_KEY = none ∨ mapGet labels TOPOLOGY_INFO_KEY = some "")) :
    getTopologies h nodeInfo = Except.ok [] ∧
      Score h pod nodeName = some (0, Status.nil) ∧
      NewDeviceList [] = Outcome.error "no devices provided" := by
  have htop : getTopologies h nodeInfo = Except.ok [] := by
    rcases hno with h0 | ⟨labels, h1, h2 | h2⟩
    · simp only [getTopologies, h0]
    · simp [getTopologies, h1, h2]
    · simp [getTopologies, h1, h2]
  refine ⟨htop, ?_, rfl⟩
  rw [Score_of_topologies hnode htop]
  rfl

theorem Score_no_topology_witness :
    Score (hostWith (some [(TOPOLOGY_INFO_KEY, "")]) (Except.error "unexpected end of JSON input"))
        (gpuPod 2) "node-1" = some (0, Status.nil) ∧
      Score (hostWith none (Except.error "unexpected end of JSON input"))
        (gpuPod 2) "node-1" = some (0, Status.nil) :=
  ⟨(Score_no_topology _ (gpuPod 2) "node-1" _ rfl
      (Or.inr ⟨[(TOPOLOGY_INFO_KEY, "")], rfl, Or.inr (by decide)⟩)).2.1,
    (Score_no_topology _ (gpuPod 2) "node-1" _ rfl (Or.inl rfl)).2.1⟩

theorem NewDeviceList_unequal_rows {matrix : List (List Int)} {i j : Nat}
    (hi : i < matrix.length) (hj : j < matrix.length)
    (hne : (matrix[i]).length ≠ (matrix[j]).length) :
    NewDeviceList matrix = Outcome.error "invalid device list" := by
  have hlen : ¬ matrix.length = 0 := by omega
  have hval : validateSlice matrix (fun m1 m2 => m1.length == m2.length) = false := by
    by_contra hc
    rw [Bool.not_eq_false, validateSlice_eq_true_iff] at hc
    have gi : matrix.getD i [] = matrix[i] := List.getD_eq_getElem _ _ hi
    have gj : matrix.getD j [] = matrix[j] := List.getD_eq_getElem _ _ hj
    rcases Nat.lt_trichotomy i j with h | h | h
    · have := hc i j h hj
      rw [gi, gj] at this
      exact hne (by simpa using this)
    · subst h
      exact hne rfl
    · have := hc j i h hi
      rw [gi, gj] at this
      have e : (matrix[j]).length = (matrix[i]).length := by simpa using this
      exact hne e.symm
  simp [NewDeviceList, hlen, hval]

/-- C13, as amended: for a node whose annotation decodes to a matrix with two rows of
different lengths, `Score` returns score 0 with an error status that carries the error of
`NewDeviceList`; for a node whose annotation decodes to a matrix with zero rows, the guard
`len(topologies) == 0` makes `Score` return score 0 with the nil (success) status. -/
theorem Score_construction_errors (h : Host) (pod : Pod) (nodeName : String) (nodeInfo : Node)
    (labels : List (String × String)) (matrix : List (List Int))
    (hnode : h.NodeInfosGet nodeName = Except.ok nodeInfo)
    (hann : nodeInfo.Annotations = some labels)
    (hkey : ((mapGet labels TOPOLOGY_INFO_KEY).getD "").length ≠ 0)
    (hdec : h.Unmarshal ((mapGet labels TOPOLOGY_INFO_KEY).getD "") = Except.ok matrix) :
    ((∃ (i j : Nat) (hi : i < matrix.length) (hj : j < matrix.length),
          (matrix[i]).length ≠ (matrix[j]).length) →
        Score h pod nodeName = some (0, Status.status Code.Error "invalid device list") ∧
          (Status.status Code.Error "invalid device list").Code ≠ Code.Success) ∧
      (matrix.length = 0 → Score h pod nodeName = some (0, Status.nil)) := by
  have htop : getTopologies h nodeInfo = Except.ok matrix := by
    rw [getTopologies_decoded hann hkey, decodeFloatSlice_ok hdec]
  rw [Score_of_topologies hnode htop]
  constructor
  · rintro ⟨i, j, hi, hj, hne⟩
    rw [if_neg (by omega), NewDeviceList_unequal_rows hi hj hne]
    exact ⟨rfl, by decide⟩
  · intro h0
    rw [if_pos h0]

theorem Score_construction_errors_witness :
    Score (hostWith (some [(TOPOLOGY_INFO_KEY, "[[1,2,3],[3,2,1],[3,0]]")])
        (Except.ok invalidMatrix)) (gpuPod 2) "node-0" =
      some (0, Status.status Code.Error "invalid device list") :=
  ((Score_construction_errors _ (gpuPod 2) "node-0" _ _ invalidMatrix rfl rfl (by decide) rfl).1
    ⟨0, 2, by decide, by decide, by decide⟩).1

/-- C13, the counterexample: a node whose annotation `[]` decodes to the matrix with zero
rows gets score 0 with the nil status, whose code is `Success`: no failure is reported. -/
theorem Score_empty_matrix_is_success :
    decodeFloatSlice (hostWith (some [(TOPOLOGY_INFO_KEY, "[]")]) (Except.ok [])) "[]" =
        Except.ok [] ∧
      Score (hostWith (some [(TOPOLOGY_INFO_KEY, "[]")]) (Except.ok [])) (gpuPod 2) "node-0" =
        some (0, Status.nil) ∧
      Status.nil.Code = Code.Success ∧
      ¬ ∃ (score : Int) (status : Status),
        Score (hostWith (some [(TOPOLOGY_INFO_KEY, "[]")]) (Except.ok [])) (gpuPod 2) "node-0" =
          some (score, status) ∧ status.Code ≠ Code.Success := by
  refine ⟨rfl, rfl, rfl, ?_⟩
  rintro ⟨score, status, h1, h2⟩
  have h3 : Score (hostWith (some [(TOPOLOGY_INFO_KEY, "[]")]) (Except.ok [])) (gpuPod 2)
      "node-0" = some (0, Status.nil) := rfl
  rw [h3] at h1
  injection h1 with h1
  injection h1 with _ h1
  subst h1
  exact h2 rfl

/-- C14: when the decoder fails on the non-empty topology annotation of a node,
`decodeFloatSlice` returns the nil matrix with the error of the decoder, and `Score` returns
score 0 with the error status `failed to get topology matrix` for every pod, which is the
return in front of the calls of `NewDeviceList` and `allocate`. -/
theorem Score_decode_failure (h : Host) (pod : Pod) (nodeName : String) (nodeInfo : Node)
    (labels : List (String × String)) (err : String)
    (hnode : h.NodeInfosGet nodeName = Except.ok nodeInfo)
    (hann : nodeInfo.Annotations = some labels)
    (hkey : ((mapGet labels TOPOLOGY_INFO_KEY).getD "").length ≠ 0)
    (hdec : h.Unmarshal ((mapGet labels TOPOLOGY_INFO_KEY).getD "") = Except.error err) :
    decodeFloatSlice h ((mapGet labels TOPOLOGY_INFO_KEY).getD "") = Except.error err ∧
      Score h pod nodeName =
        some (0, Status.status Code.Error "failed to get topology matrix") ∧
      (Status.status Code.Error "failed to get topology matrix").Code = Code.Error := by
  have htop : getTopologies h nodeInfo = Except.error err := by
    rw [getTopologies_decoded hann hkey, decodeFloatSlice_error hdec]
  refine ⟨decodeFloatSlice_error hdec, ?_, rfl⟩
  simp only [Score, hnode, htop]

theorem Score_decode_failure_witness :
    decodeFloatSlice
        (hostWith (some [(TOPOLOGY_INFO_KEY, floatTopology)])
          (Except.error "json: cannot unmarshal number 2.1 into Go value of type int"))
        floatTopology =
      Except.error "json: cannot unmarshal number 2.1 into Go value of type int" ∧
    Score
        (hostWith (some [(TOPOLOGY_INFO_KEY, floatTopology)])
          (Except.error "json: cannot unmarshal number 2.1 into Go value of type int"))
        (gpuPod 2) "node-0" =
      some (0, Status.status Code.Error "failed to get topology matrix") :=
  ⟨(Score_decode_failure _ (gpuPod 2) "node-0" _ [(TOPOLOGY_INFO_KEY, floatTopology)] _
      rfl rfl (by decide) rfl).1,
    (Score_decode_failure _ (gpuPod 2) "node-0" _ [(TOPOLOGY_INFO_KEY, floatTopology)] _
      rfl rfl (by decide) rfl).2.1⟩

theorem PreScore_eq (pod : Pod) (nodes : List Node) :
    PreScore pod nodes =
      if (pod.Containers.any fun c => (mapGet c.Limits nvidiaGPU).isSome) = true then Status.nil
      else Status.status Code.Skip "" := by
  unfold PreScore
  cases (pod.Containers.any fun c => (mapGet c.Limits nvidiaGPU).isSome) <;> rfl

theorem any_limit_eq_false (containers : List Container) :
    (containers.any fun c => (mapGet c.Limits nvidiaGPU).isSome) = false ↔
      ∀ c ∈ containers, mapGet c.Limits nvidiaGPU = none := by
  rw [List.any_eq_false]
  constructor
  · intro h c hc
    have := h c hc
    cases hm : mapGet c.Limits nvidiaGPU with
    | none => rfl
    | some v => simp [hm] at this
  · intro h c hc
    simp [h c hc]

/-- C15: `PreScore` returns a `Skip` status if and only if no container of
`pod.Spec.Containers` has the key `nvidia.com/gpu` in its limits, and the nil status (success)
otherwise; the init containers and the node list have no influence. -/
theorem PreScore_skip_iff (pod : Pod) (nodes : List Node) :
    ((PreScore pod nodes).Code = Code.Skip ↔
        ∀ c ∈ pod.Containers, mapGet c.Limits nvidiaGPU = none) ∧
      ((PreScore pod nodes).Code ≠ Code.Skip → PreScore pod nodes = Status.nil) ∧
      ∀ (initContainers : List Container) (nodes' : List Node),
        PreScore { pod with InitContainers := initContainers } nodes' = PreScore pod nodes := by
  refine ⟨?_, ?_, fun _ _ => rfl⟩
  · rw [PreScore_eq, ← any_limit_eq_false]
    cases (pod.Containers.any fun c => (mapGet c.Limits nvidiaGPU).isSome) <;> simp [Status.Code]
  · rw [PreScore_eq]
    cases (pod.Containers.any fun c => (mapGet c.Limits nvidiaGPU).isSome) <;> simp [Status.Code]

theorem PreScore_skip_iff_witness :
    (PreScore cpuPod []).Code = Code.Skip ∧ PreScore (gpuPod 2) [] = Status.nil :=
  ⟨(PreScore_skip_iff cpuPod []).1.2 (by decide),
    (PreScore_skip_iff (gpuPod 2) []).2.1 (by decide)⟩

/-- C16, as amended: `PreScore` returns `Skip` for every pod in which no container of
`pod.Spec.Containers` declares `nvidia.com/gpu` in its limits; a pod in which a container
declares it, with whatever quantity, is not skipped: `PreScore` returns the nil status. -/
theorem PreScore_skips_undeclared (pod : Pod) (nodes : List Node) :
    ((∀ c ∈ pod.Containers, mapGet c.Limits nvidiaGPU = none) →
        PreScore pod nodes = Status.status Code.Skip "") ∧
      ((∃ c ∈ pod.Containers, ∃ quantity : Int, mapGet c.Limits nvidiaGPU = some quantity) →
        PreScore pod nodes = Status.nil) := by
  rw [PreScore_eq]
  constructor
  · intro h
    rw [(any_limit_eq_false pod.Containers).2 h]
    rfl
  · rintro ⟨c, hc, quantity, hq⟩
    have : (pod.Containers.any fun c => (mapGet c.Limits nvidiaGPU).isSome) = true := by
      rw [List.any_eq_true]
      exact ⟨c, hc, by simp [hq]⟩
    rw [this]
    rfl

theorem PreScore_skips_undeclared_witness :
    PreScore cpuPod [] = Status.status Code.Skip "" ∧
      PreScore { Containers := [], InitContainers := [] } [] = Status.status Code.Skip "" :=
  ⟨(PreScore_skips_undeclared cpuPod []).1 (by decide),
    (PreScore_skips_undeclared { Containers := [], InitContainers := [] } []).1 (by decide)⟩

/-- C16, the counterexample: the pod whose one container declares `nvidia.com/gpu: 0` has the
total limit 0 and is not skipped: `PreScore` returns the nil status, of code `Success`. -/
theorem PreScore_zero_quantity_not_skipped :
    (mapGet (testHost.PodLimits (gpuPod 0)) nvidiaGPU).getD 0 = 0 ∧
      PreScore (gpuPod 0) [] = Status.nil ∧
      (PreScore (gpuPod 0) []).Code ≠ Code.Skip := by
  decide

/-- C17: `NormalizeScore` returns the nil status and leaves a list of the same length with
the same node names, in which every score is the minimum of the original score and
`MaxNodeScore = 100`. -/
theorem NormalizeScore_clamps (scores : List NodeScore) :
    (NormalizeScore scores).2 = Status.nil ∧
      (NormalizeScore scores).1.length = scores.length ∧
      (NormalizeScore scores).1.map NodeScore.Name = scores.map NodeScore.Name ∧
      (NormalizeScore scores).1.map NodeScore.Score =
        scores.map (fun s => min s.Score MaxNodeScore) ∧
      MaxNodeScore = 100 := by
  refine ⟨rfl, by simp [NormalizeScore], ?_, ?_, rfl⟩
  · simp only [NormalizeScore, List.map_map]
    apply List.map_congr_left
    intro s _
    simp only [Function.comp, clampScore]
    split <;> rfl
  · simp only [NormalizeScore, List.map_map]
    apply List.map_congr_left
    intro s _
    simp only [Function.comp, clampScore]
    split
    · rename_i hgt
      exact (min_eq_right (le_of_lt hgt)).symm
    · rename_i hgt
      exact (min_eq_left (not_lt.1 hgt)).symm

/-- The scores 18, 100 and 136 of three nodes become 18, 100 and 100. -/
theorem NormalizeScore_example :
    NormalizeScore [{ Name := "node1", Score := 18 }, { Name := "node5", Score := 100 },
        { Name := "node2", Score := 136 }] =
      ([{ Name := "node1", Score := 18 }, { Name := "node5", Score := 100 },
        { Name := "node2", Score := 100 }], Status.nil) := by
  decide

/-! ## The allocator: counts beyond the devices, and ties -/

/-- C18: with no preselection and a count greater than the number of available devices,
`allocate` returns the empty selection and score 0, an ordinary result. -/
theorem allocate_count_exceeds (available : List Device) (count : Int)
    (h : (available.length : Int) < count) :
    allocate available [] count = ([], 0) := by
  unfold allocate
  by_cases h1 : count ≤ 0
  · rw [if_pos h1]
  rw [if_neg h1]
  by_cases hc : complete available = true
  · rw [hc, if_neg (by decide : ¬ ((!true) = true))]
    by_cases h2 : count = 1 ∧ ([] : List Device) = []
    · rw [if_pos h2]
      have h0 : available.length = 0 := by omega
      rw [List.length_eq_zero.1 h0]
    · rw [if_neg h2]
      have h3 : ¬ (count < (([] : List Device).length : Int)) := by
        simp only [List.length_nil]
        omega
      have h4 : available.length < count.toNat := by omega
      rw [if_neg h3, candidates_nil, combinations_eq_nil available _ h4]
      rfl
  · rw [Bool.not_eq_true] at hc
    rw [hc]
    rfl

theorem allocate_count_exceeds_witness :
    allocate [device0, device1, device2, device3] [] 5 = ([], 0) :=
  allocate_count_exceeds [device0, device1, device2, device3] 5 (by decide)

theorem combinations_map {α β : Type} (f : α → β) (l : List α) :
    ∀ k : Nat, combinations k (l.map f) = (combinations k l).map (List.map f) := by
  induction l with
  | nil =>
    intro k
    cases k <;> rfl
  | cons x xs ih =>
    intro k
    cases k with
    | zero => rfl
    | succ k =>
      simp only [List.map_cons, combinations, ih, List.map_append, List.map_map]
      rfl

/-- The combinations of an enumerated list are listed in lexicographic order of the
positions. -/
theorem combinations_enumFrom_pairwise {α : Type} (l : List α) :
    ∀ k n : Nat, (combinations k (l.enumFrom n)).Pairwise
      (fun a b => List.Lex (fun x y : Nat => x < y) (a.map Prod.fst) (b.map Prod.fst)) := by
  induction l with
  | nil =>
    intro k n
    cases k with
    | zero => exact List.pairwise_singleton _ _
    | succ k => exact List.Pairwise.nil
  | cons x xs ih =>
    intro k n
    cases k with
    | zero => exact List.pairwise_singleton _ _
    | succ k =>
      simp only [List.enumFrom_cons, combinations]
      rw [List.pairwise_append]
      refine ⟨?_, ih (k + 1) (n + 1), ?_⟩
      · rw [List.pairwise_map]
        exact (ih k (n + 1)).imp (fun hab => List.Lex.cons hab)
      · intro a ha b hb
        obtain ⟨c, _, rfl⟩ := List.mem_map.1 ha
        obtain ⟨hsub, hlen⟩ := (mem_combinations _ _ b).1 hb
        cases b with
        | nil => simp at hlen
        | cons y b' =>
          have hy : y ∈ xs.enumFrom (n + 1) := hsub.subset (List.mem_cons_self _ _)
          have := List.le_fst_of_mem_enumFrom hy
          exact List.Lex.rel (by show n < y.1; omega)

theorem foldl_better_first_some {α : Type} (f : α → List Device × Int) (E : List α) :
    ∀ b r : List Device × Int, (E.map f).foldl better (some b) = some r →
      (r = b ∧ ∀ x ∈ E, (f x).2 ≤ b.2) ∨
        ∃ E1 e E2, E = E1 ++ e :: E2 ∧ r = f e ∧ b.2 < (f e).2 ∧
          (∀ x ∈ E1, (f x).2 < (f e).2) ∧ ∀ x ∈ E2, (f x).2 ≤ (f e).2 := by
  induction E with
  | nil =>
    intro b r h
    simp only [List.map_nil, List.foldl_nil] at h
    injection h with h
    exact Or.inl ⟨h.symm, fun x hx => absurd hx (List.not_mem_nil _)⟩
  | cons c cs ih =>
    intro b r h
    simp only [List.map_cons, List.foldl_cons, better] at h
    by_cases hlt : b.2 < (f c).2
    · rw [if_pos hlt] at h
      rcases ih (f c) r h with ⟨h1, h2⟩ | ⟨E1, e, E2, h1, h2, h3, h4, h5⟩
      · refine Or.inr ⟨[], c, cs, rfl, h1, hlt, fun x hx => absurd hx (List.not_mem_nil _), h2⟩
      · refine Or.inr ⟨c :: E1, e, E2, by rw [h1]; rfl, h2, by omega, ?_, h5⟩
        intro x hx
        rcases List.mem_cons.1 hx with e1 | e1
        · rw [e1]; exact h3
        · exact h4 x e1
    · rw [if_neg hlt] at h
      rcases ih b r h with ⟨h1, h2⟩ | ⟨E1, e, E2, h1, h2, h3, h4, h5⟩
      · refine Or.inl ⟨h1, ?_⟩
        intro x hx
        rcases List.mem_cons.1 hx with e1 | e1
        · rw [e1]; omega
        · exact h2 x e1
      · refine Or.inr ⟨c :: E1, e, E2, by rw [h1]; rfl, h2, h3, ?_, h5⟩
        intro x hx
        rcases List.mem_cons.1 hx with e1 | e1
        · rw [e1]; omega
        · exact h4 x e1

/-- The fold of `better` keeps the first candidate of greatest score. -/
theorem foldl_better_first {α : Type} (f : α → List Device × Int) (E : List α)
    (r : List Device × Int) (h : (E.map f).foldl better none = some r) :
    ∃ E1 e E2, E = E1 ++ e :: E2 ∧ r = f e ∧
      (∀ x ∈ E1, (f x).2 < (f e).2) ∧ ∀ x ∈ E2, (f x).2 ≤ (f e).2 := by
  cases E with
  | nil => simp at h
  | cons c cs =>
    simp only [List.map_cons, List.foldl_cons, better] at h
    rcases foldl_better_first_some f cs (f c) r h with ⟨h1, h2⟩ | ⟨E1, e, E2, h1, h2, h3, h4, h5⟩
    · exact ⟨[], c, cs, rfl, h1, fun x hx => absurd hx (List.not_mem_nil _), h2⟩
    · refine ⟨c :: E1, e, E2, by rw [h1]; rfl, h2, ?_, h5⟩
      intro x hx
      rcases List.mem_cons.1 hx with e1 | e1
      · rw [e1]; exact h3
      · exact h4 x e1

/-- C19: on a complete `available`, with no preselection and `2 ≤ k ≤ len(available)`, the
selection of `allocate` is a `k`-subset `e` of the positions of `available` (in ascending index
order) whose pairwise weight sum is the score returned; no `k`-subset `e'` has a greater
pairwise weight sum, so `e` attains the maximum; and every `k`-subset `e'` that attains the
maximum too has the same positions as `e` or a lexicographically greater sequence of
positions: among the subsets of greatest score the lexicographically smallest one is
returned. -/
theorem allocate_tie_break (available : List Device) (k : Nat)
    (hc : complete available = true) (h2 : 2 ≤ k) (hk : k ≤ available.length) :
    ∃ e : List (Nat × Device), e.Sublist available.enum ∧ e.length = k ∧
      allocate available [] (k : Int) =
        (sortByIndex (e.map Prod.snd), setScore (e.map Prod.snd)) ∧
      ∀ e' : List (Nat × Device), e'.Sublist available.enum → e'.length = k →
        setScore (e'.map Prod.snd) ≤ setScore (e.map Prod.snd) ∧
        (setScore (e'.map Prod.snd) = setScore (e.map Prod.snd) →
          e.map Prod.fst = e'.map Prod.fst ∨
            List.Lex (fun x y : Nat => x < y) (e.map Prod.fst) (e'.map Prod.fst)) := by
  have hE : combinations k available =
      (combinations k available.enum).map (List.map Prod.snd) := by
    rw [← combinations_map, List.enum_map_snd]
  have hne : ((combinations k available).map fun u => (sortByIndex u, setScore u)) ≠ [] := by
    intro h
    exact combinations_ne_nil available k hk (List.map_eq_nil_iff.1 h)
  obtain ⟨r, hr, _, _⟩ := foldl_better_none _ hne
  have hr' := hr
  rw [hE, List.map_map] at hr'
  obtain ⟨E1, e, E2, hdec, hre, hpre, hpost⟩ := foldl_better_first _ _ r hr'
  have hmem : e ∈ combinations k available.enum := by
    rw [hdec]
    exact List.mem_append_right _ (List.mem_cons_self _ _)
  obtain ⟨hsub, hlen⟩ := (mem_combinations _ _ e).1 hmem
  have hall : allocate available [] (k : Int) = r := by
    rw [allocate_search hc k h2, hr]
  have hpw := combinations_enumFrom_pairwise available k 0
  rw [show available.enumFrom 0 = available.enum from rfl, hdec, List.pairwise_append] at hpw
  refine ⟨e, hsub, hlen, by rw [hall, hre]; rfl, ?_⟩
  intro e' hsub' hlen'
  have hmem' : e' ∈ combinations k available.enum := (mem_combinations _ _ e').2 ⟨hsub', hlen'⟩
  rw [hdec] at hmem'
  rcases List.mem_append.1 hmem' with h1 | h1
  · have hlt := hpre e' h1
    simp only [Function.comp] at hlt
    exact ⟨le_of_lt hlt, fun heq => absurd heq (ne_of_lt hlt)⟩
  · rcases List.mem_cons.1 h1 with h3 | h3
    · rw [h3]
      exact ⟨le_refl _, fun _ => Or.inl rfl⟩
    · have hle := hpost e' h3
      simp only [Function.comp] at hle
      exact ⟨hle, fun _ => Or.inr ((List.pairwise_cons.1 hpw.2.1).1 e' h3)⟩

theorem allocate_tie_break_witness :
    allocate (devicesOf node2Matrix) [] 2 = ((devicesOf node2Matrix).take 2, 200) ∧
      setScore ((devicesOf node2Matrix).drop 2) = 200 ∧
      allocate [device0, device1, device2, device3] [] 2 = ([device2, device3], 400) ∧
      ∃ e : List (Nat × Device), e.Sublist (devicesOf node2Matrix).enum ∧ e.length = 2 ∧
        allocate (devicesOf node2Matrix) [] ((2 : Nat) : Int) =
          (sortByIndex (e.map Prod.snd), setScore (e.map Prod.snd)) ∧
        ∀ e' : List (Nat × Device), e'.Sublist (devicesOf node2Matrix).enum → e'.length = 2 →
          setScore (e'.map Prod.snd) ≤ setScore (e.map Prod.snd) ∧
          (setScore (e'.map Prod.snd) = setScore (e.map Prod.snd) →
            e.map Prod.fst = e'.map Prod.fst ∨
              List.Lex (fun x y : Nat => x < y) (e.map Prod.fst) (e'.map Prod.fst)) :=
  ⟨by decide, by decide, by decide,
    allocate_tie_break (devicesOf node2Matrix) 2 (by decide) (by decide) (by decide)⟩

/-! ## `NewDeviceList` and the diagonal of the matrix -/

theorem setLink_bounds {devices devices' : List Device} {i j : Nat} {linkType : Int}
    (h : setLink devices i j linkType = some devices') :
    i < devices.length ∧ j < devices.length := by
  unfold setLink at h
  split at h
  · rename_i di dj hi hj
    exact ⟨(List.getElem?_eq_some_iff.1 hi).1, (List.getElem?_eq_some_iff.1 hj).1⟩
  · cases h

theorem setLink_self_key {devices devices' : List Device} {i j : Nat} {linkType : Int}
    (hij : i ≠ j) (h : setLink devices i j linkType = some devices') (p : Nat) :
    mapGet (linksAt devices' p) p = mapGet (linksAt devices p) p := by
  obtain ⟨hi, hj⟩ := setLink_bounds h
  obtain ⟨d1, e1, _, o1, s1⟩ := setLink_spec devices i j linkType hi hj
  rw [e1] at h
  injection h with h
  subst h
  by_cases hp : p = i
  · subst hp
    rw [s1, mapGet_mapSet_ne _ _ _ _ hij]
  · simp only [linksAt]
    rw [o1 p hp]

theorem linkLoop_self_key (i : Nat) (links : List Int) :
    ∀ (j : Nat) (devices devices' : List Device), linkLoop i j links devices = some devices' →
      ∀ p, mapGet (linksAt devices' p) p = mapGet (linksAt devices p) p := by
  induction links with
  | nil =>
    intro j devices devices' h p
    simp only [linkLoop] at h
    injection h with h
    rw [h]
  | cons linkType rest ih =>
    intro j devices devices' h p
    simp only [linkLoop] at h
    split at h
    · exact ih _ _ _ h p
    · rename_i hij
      split at h
      · rename_i d1 h1
        rw [ih _ _ _ h p, setLink_self_key hij h1 p]
      · cases h

theorem rowLoop_self_key (matrix : List (List Int)) :
    ∀ (i : Nat) (devices devices' : List Device), rowLoop i matrix devices = some devices' →
      ∀ p, mapGet (linksAt devices' p) p = mapGet (linksAt devices p) p := by
  induction matrix with
  | nil =>
    intro i devices devices' h p
    simp only [rowLoop] at h
    injection h with h
    rw [h]
  | cons links rest ih =>
    intro i devices devices' h p
    simp only [rowLoop] at h
    split at h
    · rename_i d1 h1
      rw [ih _ _ _ h p, linkLoop_self_key _ _ _ _ _ h1 p]
    · cases h

theorem NewDeviceList_self_key {matrix : List (List Int)} {devices : List Device}
    (h : NewDeviceList matrix = Outcome.ok devices) (p : Nat) :
    mapGet (linksAt devices p) p = none := by
  unfold NewDeviceList at h
  split at h
  · cases h
  · split at h
    · cases h
    · simp only at h
      split at h
      · rename_i d1 h1
        injection h with h
        subst h
        rw [rowLoop_self_key _ _ _ _ h1 p, mapGet_linksAt_init]
      · cases h

theorem linkLoop_congr (i : Nat) (links1 : List Int) :
    ∀ (links2 : List Int) (j0 : Nat) (devices : List Device),
      links1.length = links2.length →
      (∀ p, p < links1.length → i ≠ j0 + p → links1.getD p 0 = links2.getD p 0) →
      linkLoop i j0 links1 devices = linkLoop i j0 links2 devices := by
  induction links1 with
  | nil =>
    intro links2 j0 devices hl _
    cases links2 with
    | nil => rfl
    | cons _ _ => simp at hl
  | cons t1 rest1 ih =>
    intro links2 j0 devices hl hcells
    cases links2 with
    | nil => simp at hl
    | cons t2 rest2 =>
      simp only [List.length_cons, Nat.add_right_cancel_iff] at hl
      have hrest : ∀ devices', linkLoop i (j0 + 1) rest1 devices' =
          linkLoop i (j0 + 1) rest2 devices' := by
        intro devices'
        apply ih rest2 (j0 + 1) devices' hl
        intro p hp hne
        have := hcells (p + 1) (by simp only [List.length_cons]; omega) (by omega)
        simpa [List.getD] using this
      simp only [linkLoop]
      by_cases hij : i = j0
      · rw [if_pos hij, if_pos hij]
        exact hrest devices
      · rw [if_neg hij, if_neg hij]
        have ht : t1 = t2 := by
          have := hcells 0 (by simp) (by omega)
          simpa [List.getD] using this
        rw [ht]
        cases setLink devices i j0 t2 with
        | none => rfl
        | some d1 => exact hrest d1

theorem rowLoop_congr (matrix1 : List (List Int)) :
    ∀ (matrix2 : List (List Int)) (i0 : Nat) (devices : List Device),
      matrix1.length = matrix2.length →
      (∀ r, r < matrix1.length →
        (matrix1.getD r []).length = (matrix2.getD r []).length ∧
        ∀ p, p < (matrix1.getD r []).length → i0 + r ≠ p →
          (matrix1.getD r []).getD p 0 = (matrix2.getD r []).getD p 0) →
      rowLoop i0 matrix1 devices = rowLoop i0 matrix2 devices := by
  induction matrix1 with
  | nil =>
    intro matrix2 i0 devices hl _
    cases matrix2 with
    | nil => rfl
    | cons _ _ => simp at hl
  | cons row1 rest1 ih =>
    intro matrix2 i0 devices hl hrows
    cases matrix2 with
    | nil => simp at hl
    | cons row2 rest2 =>
      simp only [List.length_cons, Nat.add_right_cancel_iff] at hl
      have h0 := hrows 0 (by simp)
      simp only [List.getD_cons_zero, Nat.add_zero] at h0
      have hhead : linkLoop i0 0 row1 devices = linkLoop i0 0 row2 devices := by
        apply linkLoop_congr i0 row1 row2 0 devices h0.1
        intro p hp hne
        exact h0.2 p hp (by omega)
      have hrest : ∀ devices', rowLoop (i0 + 1) rest1 devices' =
          rowLoop (i0 + 1) rest2 devices' := by
        intro devices'
        apply ih rest2 (i0 + 1) devices' hl
        intro r hr
        have := hrows (r + 1) (by simp only [List.length_cons]; omega)
        simp only [List.getD_cons_succ] at this
        refine ⟨this.1, ?_⟩
        intro p hp hne
        exact this.2 p hp (by omega)
      simp only [rowLoop, hhead]
      cases linkLoop i0 0 row2 devices with
      | none => rfl
      | some d1 => exact hrest d1

theorem validateSlice_congr {matrix1 matrix2 : List (List Int)}
    (hl : matrix1.length = matrix2.length)
    (hrows : ∀ r, r < matrix1.length →
      (matrix1.getD r []).length = (matrix2.getD r []).length) :
    validateSlice matrix1 (fun m1 m2 => m1.length == m2.length) =
      validateSlice matrix2 (fun m1 m2 => m1.length == m2.length) := by
  rw [Bool.eq_iff_iff, validateSlice_eq_true_iff, validateSlice_eq_true_iff]
  constructor
  · intro h i j hij hj
    have := h i j hij (by omega)
    rw [← hrows i (by omega), ← hrows j (by omega)]
    exact this
  · intro h i j hij hj
    have := h i j hij (by omega)
    rw [hrows i (by omega), hrows j (by omega)]
    exact this

/-- Two matrices of the same shape that agree outside the diagonal have the same outcome. -/
theorem NewDeviceList_congr {matrix1 matrix2 : List (List Int)}
    (hl : matrix1.length = matrix2.length)
    (hrows : ∀ i, i < matrix1.length →
      (matrix1.getD i []).length = (matrix2.getD i []).length ∧
      ∀ j, j < (matrix1.getD i []).length → i ≠ j → cell matrix1 i j = cell matrix2 i j) :
    NewDeviceList matrix1 = NewDeviceList matrix2 := by
  unfold NewDeviceList
  by_cases h0 : matrix1.length = 0
  · rw [if_pos h0, if_pos (show matrix2.length = 0 by omega)]
  · rw [if_neg h0, if_neg (show ¬ matrix2.length = 0 by omega),
      validateSlice_congr hl (fun r hr => (hrows r hr).1)]
    have hd : (matrix1.getD 0 []).length = (matrix2.getD 0 []).length :=
      (hrows 0 (by omega)).1
    have hloop : ∀ devices, rowLoop 0 matrix1 devices = rowLoop 0 matrix2 devices := by
      intro devices
      apply rowLoop_congr matrix1 matrix2 0 devices hl
      intro r hr
      refine ⟨(hrows r hr).1, ?_⟩
      intro p hp hne
      exact (hrows r hr).2 p hp (by omega)
    simp only [hd, hloop]

/-- C20: when `NewDeviceList` succeeds, no device of the list has a `Links` entry under its
own `Index`, and every matrix of the same shape that differs from the given one on the
diagonal only gives the same device list. -/
theorem NewDeviceList_ignores_diagonal (matrix : List (List Int)) (devices : List Device)
    (h : NewDeviceList matrix = Outcome.ok devices) :
    (∀ (k : Nat) (hk : k < devices.length),
        mapGet (devices[k]).Links (devices[k]).Index = none) ∧
      ∀ matrix' : List (List Int), matrix.length = matrix'.length →
        (∀ i, i < matrix.length →
          (matrix.getD i []).length = (matrix'.getD i []).length ∧
          ∀ j, j < (matrix.getD i []).length → i ≠ j → cell matrix i j = cell matrix' i j) →
        NewDeviceList matrix' = Outcome.ok devices := by
  constructor
  · intro k hk
    have h1 := NewDeviceList_self_key h k
    rw [(NewDeviceList_index_at matrix devices h).2 k hk]
    simpa [linksAt, List.getElem?_eq_getElem hk] using h1
  · intro matrix' hl hrows
    rw [← NewDeviceList_congr hl hrows]
    exact h

theorem NewDeviceList_ignores_diagonal_witness :
    (∀ (k : Nat) (hk : k < wantDevices.length),
        mapGet (wantDevices[k]).Links (wantDevices[k]).Index = none) ∧
      NewDeviceList correctMatrixOtherDiagonal = Outcome.ok wantDevices :=
  ⟨(NewDeviceList_ignores_diagonal correctMatrix wantDevices (by decide)).1,
    (NewDeviceList_ignores_diagonal correctMatrix wantDevices (by decide)).2
      correctMatrixOtherDiagonal (by decide) (by decide)⟩

/-! ## `NewDeviceList` on rectangular matrices that are not square -/

theorem setLink_out_of_range (devices : List Device) (i j : Nat) (linkType : Int)
    (hi : devices.length ≤ i) : setLink devices i j linkType = none := by
  unfold setLink
  rw [List.getElem?_eq_none hi]

theorem rowLoop_append (rows1 rows2 : List (List Int)) :
    ∀ (i0 : Nat) (devices : List Device),
      rowLoop i0 (rows1 ++ rows2) devices =
        match rowLoop i0 rows1 devices with
        | some devices' => rowLoop (i0 + rows1.length) rows2 devices'
        | none => none := by
  induction rows1 with
  | nil =>
    intro i0 devices
    simp [rowLoop]
  | cons links rest ih =>
    intro i0 devices
    simp only [List.cons_append, rowLoop, List.length_cons]
    cases linkLoop i0 0 links devices with
    | none => rfl
    | some d1 =>
      show rowLoop (i0 + 1) (rest ++ rows2) d1 = _
      rw [ih (i0 + 1) d1, show i0 + 1 + rest.length = i0 + (rest.length + 1) by omega]

/-- The row loop panics on a row that is not empty when there are no more devices than
rows in front of it. -/
theorem rowLoop_out_of_range (links : List Int) (rest : List (List Int)) (i0 : Nat)
    (devices : List Device) (hlinks : 1 ≤ links.length) (hi : devices.length ≤ i0)
    (h0 : 1 ≤ i0) : rowLoop i0 (links :: rest) devices = none := by
  cases links with
  | nil => simp at hlinks
  | cons linkType links' =>
    have hne : ¬ i0 = 0 := by omega
    simp only [rowLoop, linkLoop, if_neg hne, setLink_out_of_range devices i0 0 linkType hi]

/-- A matrix of rows of the same length `n ≥ 1` with more than `n` rows makes `NewDeviceList`
panic: row `n` asks for `devices[n]` in a list of `n` devices. -/
theorem NewDeviceList_panics_of_more_rows (matrix : List (List Int)) (n : Nat) (hn : 1 ≤ n)
    (hcols : ∀ row ∈ matrix, row.length = n) (hrows : n < matrix.length) :
    NewDeviceList matrix = Outcome.panicked := by
  have hne : ¬ matrix.length = 0 := by omega
  have h0 : (matrix.getD 0 []).length = n := hcols _ (getD_mem matrix 0 [] (by omega))
  have hinit : ((List.range n).map newDevice).length = n := by simp
  have htake : (matrix.take n).length = n := by
    rw [List.length_take]
    omega
  obtain ⟨d1, e1, l1, _, _⟩ := rowLoop_spec (matrix.take n) 0 ((List.range n).map newDevice)
    (fun row hr => by rw [hinit]; exact hcols row (List.mem_of_mem_take hr)) (by omega)
  have hloop : rowLoop 0 matrix ((List.range n).map newDevice) = none := by
    rw [← List.take_append_drop n matrix, rowLoop_append, e1]
    simp only [Nat.zero_add, htake]
    cases hd : matrix.drop n with
    | nil =>
      have := congrArg List.length hd
      simp only [List.length_drop, List.length_nil] at this
      omega
    | cons links rest =>
      have hmem : links ∈ matrix :=
        List.mem_of_mem_drop (by rw [hd]; exact List.mem_cons_self _ _)
      exact rowLoop_out_of_range links rest n d1 (by rw [hcols links hmem]; exact hn)
        (by omega) hn
  unfold NewDeviceList
  rw [if_neg hne, validateSlice_of_rows hcols]
  simp only [Bool.not_true, Bool.false_eq_true, if_false]
  rw [h0, hloop]

/-- C21, the failing input: `moreRowsMatrix` is not empty and its three rows have the same
length 2, yet `NewDeviceList` neither returns a device list nor an error: it panics, at
`devices[2]` of a list of two devices. With fewer rows than columns (`fewerRowsMatrix`) it
returns the device list, in which the device without a row has no link. -/
theorem NewDeviceList_more_rows_panics :
    moreRowsMatrix.length ≠ 0 ∧ (∀ row ∈ moreRowsMatrix, row.length = 2) ∧
      NewDeviceList moreRowsMatrix = Outcome.panicked ∧
      setLink ((List.range 2).map newDevice) 2 0 7 = none ∧
      NewDeviceList fewerRowsMatrix =
        Outcome.ok
          [{ Index := 0, Links := [(1, [{ GPU := 1, Type_ := 8 }]),
              (2, [{ GPU := 2, Type_ := 7 }])] },
           { Index := 1, Links := [(0, [{ GPU := 0, Type_ := 8 }]),
              (2, [{ GPU := 2, Type_ := 7 }])] },
           { Index := 2, Links := [] }] :=
  ⟨by decide, by decide,
    NewDeviceList_panics_of_more_rows moreRowsMatrix 2 (by decide) (by decide) (by decide),
    by decide, by decide⟩

/-! ## The range of the score -/

theorem allocate_score_of_count_gt (available : List Device) (count : Int)
    (h : (available.length : Int) < count) : (allocate available [] count).2 = 0 := by
  unfold allocate
  by_cases h1 : count ≤ 0
  · rw [if_pos h1]
  rw [if_neg h1]
  by_cases hc : complete available = true
  · rw [hc, if_neg (by decide : ¬ ((!true) = true))]
    by_cases h2 : count = 1 ∧ ([] : List Device) = []
    · rw [if_pos h2]
      have h0 : available.length = 0 := by omega
      rw [List.length_eq_zero.1 h0]
    · rw [if_neg h2]
      have h3 : ¬ (count < (([] : List Device).length : Int)) := by
        simp only [List.length_nil]
        omega
      have h4 : available.length < count.toNat := by omega
      rw [if_neg h3, candidates_nil, combinations_eq_nil available _ h4]
      rfl
  · rw [Bool.not_eq_true] at hc
    rw [hc]
    rfl

/-- On a node of at most ten million devices the 64-bit products of `Score` do not overflow for
a raw score within the 18-NVLink bound, unless the raw score is 0. -/
theorem no_overflow_of_few_devices (devices : List Device) (q s : Int) (hq2 : 2 ≤ q)
    (hlen : devices.length ≤ 10000000) (hs : (allocate devices [] q).2 = s)
    (hs1 : s ≤ 1800 * q * (q - 1) / 2) :
    s = 0 ∨ (q * (q - 1) * 1800 < 2 ^ 63 ∧ 100 * s < 2 ^ 63) := by
  by_cases hgt : (devices.length : Int) < q
  · left
    rw [← hs]
    exact allocate_score_of_count_gt devices q hgt
  · right
    have hq : q ≤ 10000000 := by omega
    have hbound : 1800 * q * (q - 1) / 2 = 900 * (q * (q - 1)) := by
      have : 1800 * q * (q - 1) = 2 * (900 * (q * (q - 1))) := by ring
      rw [this, Int.mul_ediv_cancel_left _ (by decide)]
    rw [hbound] at hs1
    have hP : q * (q - 1) ≤ 10000000 * 9999999 := by nlinarith
    constructor <;> omega

/-- The quotient of `Score` for a raw score between 0 and `900 * p`, with `p = q * (q - 1)`. -/
theorem quotient_range (p s : Int) (hp : 0 < p) (hs0 : 0 ≤ s) (hs1 : s ≤ 900 * p) :
    0 ≤ 100 * s / (900 * p) ∧ 100 * s / (900 * p) ≤ 100 ∧
      (100 * s / (900 * p) = 100 ↔ s = 900 * p) := by
  have hM : 0 < 900 * p := by omega
  have hle : 100 * s / (900 * p) ≤ 100 := Int.ediv_le_of_le_mul hM (by omega)
  refine ⟨Int.ediv_nonneg (by omega) (le_of_lt hM), hle, ?_⟩
  constructor
  · intro hv
    have h100 : (100 : Int) ≤ 100 * s / (900 * p) := by omega
    have := (Int.le_ediv_iff_mul_le hM).1 h100
    omega
  · intro he
    rw [he]
    exact Int.mul_ediv_cancel 100 (by omega)

/-- C22: for a count `q ≥ 2` and a raw score `s` with `0 ≤ s ≤ 1800 * q * (q - 1) / 2`, the
quotient `100 * s / (q * (q - 1) * 1800 / 2)` lies between 0 and `MaxNodeScore = 100` and is
100 exactly when `s = 1800 * q * (q - 1) / 2`; and it is the value that `Score` returns, with
the nil status, for a pod of limit `q` on a node whose devices give the raw score `s`, as long
as `s = 0` or the 64-bit products do not overflow. -/
theorem Score_within_MaxNodeScore (h : Host) (pod : Pod) (nodeName : String) (nodeInfo : Node)
    (labels : List (String × String)) (matrix : List (List Int)) (devices : List Device)
    (q s : Int)
    (hnode : h.NodeInfosGet nodeName = Except.ok nodeInfo)
    (hann : nodeInfo.Annotations = some labels)
    (hkey : ((mapGet labels TOPOLOGY_INFO_KEY).getD "").length ≠ 0)
    (hdec : h.Unmarshal ((mapGet labels TOPOLOGY_INFO_KEY).getD "") = Except.ok matrix)
    (hdev : NewDeviceList matrix = Outcome.ok devices)
    (hq : (mapGet (h.PodLimits pod) nvidiaGPU).getD 0 = q) (hq2 : 2 ≤ q)
    (hs : (allocate devices [] q).2 = s)
    (hs0 : 0 ≤ s) (hs1 : s ≤ 1800 * q * (q - 1) / 2) :
    0 ≤ 100 * s / (q * (q - 1) * 1800 / 2) ∧
      100 * s / (q * (q - 1) * 1800 / 2) ≤ MaxNodeScore ∧
      (100 * s / (q * (q - 1) * 1800 / 2) = 100 ↔ s = 1800 * q * (q - 1) / 2) ∧
      ((s = 0 ∨ (q * (q - 1) * 1800 < 2 ^ 63 ∧ 100 * s < 2 ^ 63)) →
        Score h pod nodeName = some (100 * s / (q * (q - 1) * 1800 / 2), Status.nil)) := by
  have hP : 2 ≤ q * (q - 1) := by nlinarith
  have hden : q * (q - 1) * 1800 / 2 = 900 * (q * (q - 1)) := by
    have : q * (q - 1) * 1800 = 2 * (900 * (q * (q - 1))) := by ring
    rw [this, Int.mul_ediv_cancel_left _ (by decide)]
  have hbound : 1800 * q * (q - 1) / 2 = 900 * (q * (q - 1)) := by
    have : 1800 * q * (q - 1) = 2 * (900 * (q * (q - 1))) := by ring
    rw [this, Int.mul_ediv_cancel_left _ (by decide)]
  rw [hbound] at hs1
  obtain ⟨r1, r2, r3⟩ := quotient_range (q * (q - 1)) s (by omega) hs0 hs1
  rw [hden, hbound]
  refine ⟨r1, r2, r3, ?_⟩
  intro hfit
  have hfit' : s = 0 ∨
      (q * (q - 1) * 1800 < 2 ^ 63 ∧ -(2 ^ 63) ≤ 100 * s ∧ 100 * s < 2 ^ 63) := by
    rcases hfit with h0 | ⟨h1, h2⟩
    · exact Or.inl h0
    · exact Or.inr ⟨h1, by omega, h2⟩
  have htop : getTopologies h nodeInfo = Except.ok matrix := by
    rw [getTopologies_decoded hann hkey, decodeFloatSlice_ok hdec]
  rw [Score_of_topologies hnode htop, if_neg (NewDeviceList_ok_length hdev)]
  simp only [hdev, hq, hs]
  rw [score_arith q s hq2 hfit', hden,
    Int.tdiv_eq_ediv (by omega : (0 : Int) ≤ 100 * s) (by omega)]

theorem Score_within_MaxNodeScore_witness :
    (100 * 1800 / (2 * (2 - 1) * 1800 / 2) = (100 : Int) ∧
        Score testHost (gpuPod 2) "node-1" =
          some (100 * 1800 / (2 * (2 - 1) * 1800 / 2), Status.nil)) ∧
      (100 * 400 / (2 * (2 - 1) * 1800 / 2) ≤ MaxNodeScore ∧
        100 * 400 / (2 * (2 - 1) * 1800 / 2) = (22 : Int) ∧
        Score testHost (gpuPod 2) "node-0" =
          some (100 * 400 / (2 * (2 - 1) * 1800 / 2), Status.nil)) :=
  ⟨⟨(Score_within_MaxNodeScore testHost (gpuPod 2) "node-1" _ _ node1Matrix
        (devicesOf node1Matrix) 2 1800 rfl rfl (by decide) rfl (by decide) rfl (by decide)
        (by decide) (by decide) (by decide)).2.2.1.2 (by decide),
      (Score_within_MaxNodeScore testHost (gpuPod 2) "node-1" _ _ node1Matrix
        (devicesOf node1Matrix) 2 1800 rfl rfl (by decide) rfl (by decide) rfl (by decide)
        (by decide) (by decide) (by decide)).2.2.2
        (Or.inr ⟨by decide, by decide⟩)⟩,
    ⟨(Score_within_MaxNodeScore testHost (gpuPod 2) "node-0" _ _ node0Matrix
        (devicesOf node0Matrix) 2 400 rfl rfl (by decide) rfl (by decide) rfl (by decide)
        (by decide) (by decide) (by decide)).2.1,
      by decide,
      (Score_within_MaxNodeScore testHost (gpuPod 2) "node-0" _ _ node0Matrix
        (devicesOf node0Matrix) 2 400 rfl rfl (by decide) rfl (by decide) rfl (by decide)
        (by decide) (by decide) (by decide)).2.2.2
        (Or.inr ⟨by decide, by decide⟩)⟩⟩

end GPUTopologyAware
